import Mathlib

/-!
# Electronero consensus arithmetic: a shallow embedding

This file embeds the consensus-arithmetic layer of the Electronero node
(proof-of-work hash validation, block reward / emission, the four
difficulty-retargeting variants, and the checkpoint registry) as Lean
definitions, and proves or refutes the specified properties about them.

Machine integers are modelled as `Nat` with explicit reduction modulo
`2 ^ 64` (or `2 ^ 32`) exactly where the C++ source performs unsigned
arithmetic that can wrap.  IEEE-754 binary64 values (used by the emission
formula and the LWMA difficulty algorithm) are modelled exactly as pairs
`(significand, exponent) : Int × Int` denoting `s * 2 ^ e`, with every
operation rounding the exact rational result to 53 significant bits with
ties to even, which is precisely the behaviour of binary64 basic
operations in round-to-nearest mode.  Operations whose C++ counterpart
produces an IEEE special value (division by zero) or is undefined
behaviour (casting an out-of-range `double` to an integer, signed
overflow) are modelled with `Option`, `none` marking the undefined case.
-/

set_option maxRecDepth 16000

namespace Electronero

/-! ## 64-bit helper arithmetic (`common/int-util.h` semantics) -/

/-- Low 64 bits of a value: unsigned 64-bit wrap-around. -/
def lo64 (n : Nat) : Nat := n % 2 ^ 64

/-- High word of a 128-bit value. -/
def hi64 (n : Nat) : Nat := n / 2 ^ 64

/-- Unsigned 64-bit subtraction `a - b` (two's complement wrap), for
`a, b < 2 ^ 64`. -/
def sub64 (a b : Nat) : Nat := (a + 2 ^ 64 - b) % 2 ^ 64

/-- `mul128` / the portable `mul` of the difficulty unit: full 64×64→128
multiply, returned as `(low, high)` words. -/
def mulLowHigh (a b : Nat) : Nat × Nat := (lo64 (a * b), hi64 (a * b))

/-- Modelled from the spec: `div128_32` of `common/int-util.h` (not part of
this excerpt) divides the 128-bit value `hi * 2^64 + lo` by a 32-bit
divisor, producing the exact 128-bit quotient `(high, low)`; the remainder
is discarded.  Division by zero is undefined behaviour in C++; here Nat
division by zero yields `0`, and every theorem below only uses a nonzero
divisor. -/
def div128_32 (hi lo d : Nat) : Nat × Nat :=
  ((hi * 2 ^ 64 + lo) / d / 2 ^ 64, (hi * 2 ^ 64 + lo) / d % 2 ^ 64)

/-! ## Proof-of-work hash check (`check_hash`, src/unnamed/part_003) -/

/-- `cadd`: carry out of the 64-bit addition `a + b`. -/
def cadd (a b : Nat) : Bool := lo64 (a + b) < a

/-- `cadc`: carry out of the 64-bit addition `a + b + c`. -/
def cadc (a b : Nat) (c : Bool) : Bool :=
  lo64 (a + b) < a || (c && lo64 (a + b) == 2 ^ 64 - 1)

/-- `check_hash(hash, difficulty)`: the hash is given as its four 64-bit
little-endian limbs `h0..h3` (the source reads each limb with `swap64le`,
so the limbs are the little-endian interpretation of the 32 hash bytes on
every host).  Returns `true` iff multiplying the 256-bit hash value by the
difficulty does not carry out of 256 bits. -/
def check_hash (h0 h1 h2 h3 d : Nat) : Bool :=
  let p3 := mulLowHigh h3 d
  if p3.2 ≠ 0 then false
  else
    let p0 := mulLowHigh h0 d
    let p1 := mulLowHigh h1 d
    let carry1 := cadd p0.2 p1.1
    let p2 := mulLowHigh h2 d
    let carry2 := cadc p1.2 p2.1 carry1
    let carry3 := cadc p2.2 p3.1 carry2
    !carry3

/-- Read a byte string as a little-endian natural number. -/
def leNat (bs : List Nat) : Nat := bs.foldr (fun b acc => b + 256 * acc) 0

/-- The `j`-th little-endian 64-bit limb of a 32-byte hash, as read by
`((const uint64_t *) &hash)[j]` combined with `swap64le`. -/
def limb (bs : List Nat) (j : Nat) : Nat := leNat ((bs.drop (8 * j)).take 8)

/-- `check_hash` on a 32-byte hash, extracting the four limbs first. -/
def check_hash_bytes (bs : List Nat) (d : Nat) : Bool :=
  check_hash (limb bs 0) (limb bs 1) (limb bs 2) (limb bs 3) d

/-! ### Facts about `leNat` -/

theorem leNat_nil : leNat [] = 0 := rfl

theorem leNat_cons (b : Nat) (bs : List Nat) :
    leNat (b :: bs) = b + 256 * leNat bs := rfl

theorem leNat_append (xs ys : List Nat) :
    leNat (xs ++ ys) = leNat xs + 256 ^ xs.length * leNat ys := by
  induction xs with
  | nil => simp [leNat_nil, leNat_cons]
  | cons x xs ih =>
      simp only [List.cons_append, leNat_cons, ih, List.length_cons]
      ring

theorem leNat_lt (bs : List Nat) (h : ∀ b ∈ bs, b < 256) :
    leNat bs < 256 ^ bs.length := by
  induction bs with
  | nil => simp [leNat_nil]
  | cons x xs ih =>
      have hx : x < 256 := h x (List.mem_cons_self x xs)
      have hxs : leNat xs < 256 ^ xs.length :=
        ih fun b hb => h b (List.mem_cons_of_mem x hb)
      simp only [leNat_cons, List.length_cons, pow_succ]
      calc x + 256 * leNat xs < 256 + 256 * leNat xs := by omega
        _ ≤ 256 * 256 ^ xs.length := by omega
        _ = 256 ^ xs.length * 256 := by ring

/-! ### `check_hash` is exactly the 256-bit product-overflow test -/

theorem check_hash_limbs_iff (h0 h1 h2 h3 d : Nat)
    (H0 : h0 < 2 ^ 64) (H1 : h1 < 2 ^ 64) (H2 : h2 < 2 ^ 64)
    (H3 : h3 < 2 ^ 64) (Hd : d < 2 ^ 64) :
    check_hash h0 h1 h2 h3 d = true ↔
      (h0 + 2 ^ 64 * h1 + 2 ^ 128 * h2 + 2 ^ 192 * h3) * d < 2 ^ 256 := by
  have key : (h0 + 2 ^ 64 * h1 + 2 ^ 128 * h2 + 2 ^ 192 * h3) * d
      = h0 * d + 2 ^ 64 * (h1 * d) + 2 ^ 128 * (h2 * d) + 2 ^ 192 * (h3 * d) := by
    ring
  have b0 : h0 * d < 2 ^ 128 := by
    calc h0 * d < 2 ^ 64 * 2 ^ 64 := Nat.mul_lt_mul'' H0 Hd
      _ = 2 ^ 128 := by norm_num
  have b1 : h1 * d < 2 ^ 128 := by
    calc h1 * d < 2 ^ 64 * 2 ^ 64 := Nat.mul_lt_mul'' H1 Hd
      _ = 2 ^ 128 := by norm_num
  have b2 : h2 * d < 2 ^ 128 := by
    calc h2 * d < 2 ^ 64 * 2 ^ 64 := Nat.mul_lt_mul'' H2 Hd
      _ = 2 ^ 128 := by norm_num
  have b3 : h3 * d < 2 ^ 128 := by
    calc h3 * d < 2 ^ 64 * 2 ^ 64 := Nat.mul_lt_mul'' H3 Hd
      _ = 2 ^ 128 := by norm_num
  rw [key]
  simp only [check_hash, mulLowHigh, cadd, cadc, lo64, hi64]
  split
  · next hcond =>
      simp only [Bool.false_eq_true, false_iff, not_lt]
      omega
  · next hcond =>
      simp only [Bool.not_eq_true', Bool.or_eq_false_iff, Bool.and_eq_false_iff,
        decide_eq_false_iff_not, not_lt, beq_eq_false_iff_ne, ne_eq]
      omega

theorem leNat_take_drop (n : Nat) (l : List Nat) :
    leNat l = leNat (l.take n) + 256 ^ (l.take n).length * leNat (l.drop n) := by
  conv_lhs => rw [← List.take_append_drop n l, leNat_append]

theorem limb_lt (bs : List Nat) (hb : ∀ b ∈ bs, b < 256) (j : Nat) :
    limb bs j < 2 ^ 64 := by
  have hlt := leNat_lt ((bs.drop (8 * j)).take 8)
    (fun b hb' => hb b (List.mem_of_mem_drop (List.mem_of_mem_take hb')))
  have hlen : ((bs.drop (8 * j)).take 8).length ≤ 8 := List.length_take_le 8 _
  calc limb bs j < 256 ^ ((bs.drop (8 * j)).take 8).length := hlt
    _ ≤ 256 ^ 8 := Nat.pow_le_pow_right (by norm_num) hlen
    _ = 2 ^ 64 := by norm_num

theorem leNat_limbs (bs : List Nat) (h : bs.length = 32) :
    leNat bs
      = limb bs 0 + 2 ^ 64 * limb bs 1 + 2 ^ 128 * limb bs 2
        + 2 ^ 192 * limb bs 3 := by
  have d8 : (bs.drop 8).drop 8 = bs.drop 16 := by
    rw [List.drop_drop]
  have d16 : (bs.drop 16).drop 8 = bs.drop 24 := by
    rw [List.drop_drop]
  have l1 : (bs.take 8).length = 8 := by rw [List.length_take]; omega
  have l2 : ((bs.drop 8).take 8).length = 8 := by
    rw [List.length_take, List.length_drop]; omega
  have l3 : ((bs.drop 16).take 8).length = 8 := by
    rw [List.length_take, List.length_drop]; omega
  have e0 : leNat bs
      = leNat (bs.take 8) + 256 ^ 8 * leNat (bs.drop 8) := by
    rw [leNat_take_drop 8 bs, l1]
  have e1 : leNat (bs.drop 8)
      = leNat ((bs.drop 8).take 8) + 256 ^ 8 * leNat (bs.drop 16) := by
    rw [leNat_take_drop 8 (bs.drop 8), l2, d8]
  have e2 : leNat (bs.drop 16)
      = leNat ((bs.drop 16).take 8) + 256 ^ 8 * leNat (bs.drop 24) := by
    rw [leNat_take_drop 8 (bs.drop 16), l3, d16]
  have e3 : leNat (bs.drop 24) = leNat ((bs.drop 24).take 8) := by
    have : (bs.drop 24).take 8 = bs.drop 24 := by
      apply List.take_of_length_le
      rw [List.length_drop]; omega
    rw [this]
  have hlimb0 : limb bs 0 = leNat (bs.take 8) := by
    simp [limb]
  have hlimb1 : limb bs 1 = leNat ((bs.drop 8).take 8) := by
    simp [limb]
  have hlimb2 : limb bs 2 = leNat ((bs.drop 16).take 8) := by
    norm_num [limb]
  have hlimb3 : limb bs 3 = leNat ((bs.drop 24).take 8) := by
    norm_num [limb]
  rw [e0, e1, e2, e3, ← hlimb0, ← hlimb1, ← hlimb2, ← hlimb3]
  norm_num
  ring

/-- C1: for every 32-byte hash `h` (little-endian byte list) and every
nonzero 64-bit difficulty `D`, `check_hash(h, D) = true` iff the 256-bit
value of `h` (equivalently, its four little-endian 64-bit limbs) times `D`
fits in 256 bits.  The limbs are extracted with `swap64le` in the source,
so this little-endian reading is what every host computes. -/
theorem check_hash_bytes_iff_mul_fits (bs : List Nat) (d : Nat)
    (hlen : bs.length = 32) (hb : ∀ b ∈ bs, b < 256)
    (hd0 : 0 < d) (hd : d < 2 ^ 64) :
    check_hash_bytes bs d = true ↔ leNat bs * d < 2 ^ 256 := by
  clear hd0
  rw [leNat_limbs bs hlen]
  exact check_hash_limbs_iff _ _ _ _ _
    (limb_lt bs hb 0) (limb_lt bs hb 1) (limb_lt bs hb 2) (limb_lt bs hb 3) hd

/-- Witness for C1 at a concrete input: the hash whose bytes are
`01 00 ... 00` (value 1) with difficulty 2. -/
theorem check_hash_bytes_iff_mul_fits_witness :
    check_hash_bytes
        (1 :: List.replicate 31 0) 2 = true ↔
      leNat (1 :: List.replicate 31 0) * 2 < 2 ^ 256 :=
  check_hash_bytes_iff_mul_fits (1 :: List.replicate 31 0) 2
    (by decide) (by decide) (by decide) (by decide)

/-! ## Exact model of IEEE-754 binary64 arithmetic

A finite `double` is represented as a pair `(m, e) : Int × Int` denoting
the real number `m * 2 ^ e`.  Every arithmetic operation computes the
exact rational result and rounds it to 53 significant bits with ties to
even — precisely the IEEE-754 semantics of binary64 `+`, `*`, `/` and of
integer-to-double conversion in the default rounding mode.  Exponent
over/underflow cannot occur for the magnitudes arising here (all values
lie far inside the binary64 range), and operations that would produce an
IEEE infinity or invoke C++ undefined behaviour are guarded with `Option`
at their call sites. -/

/-- Number of binary digits of `n` (`0` for `n = 0`): fuel-based so that
it reduces in the kernel.  The fuel `n` itself is always sufficient since
`n < 2 ^ n`. -/
def bitsAux : Nat → Nat → Nat
  | 0, _ => 0
  | fuel + 1, n => if n = 0 then 0 else bitsAux fuel (n / 2) + 1

/-- Binary length of a natural number. -/
def bits (n : Nat) : Nat := bitsAux n n

/-- `2 ^ e` in `ℚ` for a signed exponent, by cases on the sign. -/
def pow2 (e : Int) : ℚ :=
  if 0 ≤ e then ((2 ^ e.toNat : Nat) : ℚ) else (((2 ^ (-e).toNat : Nat) : ℚ))⁻¹

/-- The value of a significand–exponent pair. -/
def fval (x : Int × Int) : ℚ := (x.1 : ℚ) * pow2 x.2

/-- Does `2 ^ e ≤ a / q` hold?  (Decidable in `Nat` arithmetic.) -/
def gePow2 (a q : Nat) (e : Int) : Bool :=
  if 0 ≤ e then q * 2 ^ e.toNat ≤ a else q ≤ a * 2 ^ (-e).toNat

/-- Floor of the base-2 logarithm of `a / q` (for `a, q > 0`), as used by
the rounding routine. -/
def r53exp (a q : Nat) : Int :=
  if gePow2 a q ((bits a : Int) - (bits q : Int)) then (bits a : Int) - (bits q : Int)
  else (bits a : Int) - (bits q : Int) - 1

/-- Numerator of the scaled value `(a / q) * 2 ^ (52 - r53exp a q)`. -/
def r53A (a q : Nat) : Nat :=
  if 0 ≤ (52 - r53exp a q : Int) then a * 2 ^ (52 - r53exp a q).toNat else a

/-- Denominator of the scaled value `(a / q) * 2 ^ (52 - r53exp a q)`. -/
def r53B (a q : Nat) : Nat :=
  if 0 ≤ (52 - r53exp a q : Int) then q else q * 2 ^ (-(52 - r53exp a q)).toNat

/-- The 53-bit round-to-nearest-even significand of `a / q > 0`:
`a / q = scaled * 2 ^ (e - 52)` with `scaled ∈ [2^52, 2^53)`, and `scaled`
is rounded to the nearest integer, ties to even. -/
def r53mant (a q : Nat) : Nat :=
  if 2 * (r53A a q % r53B a q) < r53B a q then r53A a q / r53B a q
  else if r53B a q < 2 * (r53A a q % r53B a q) then r53A a q / r53B a q + 1
  else if (r53A a q / r53B a q) % 2 = 0 then r53A a q / r53B a q
  else r53A a q / r53B a q + 1

/-- Round the rational `p / q` (with `q > 0`) to the nearest binary64
value, ties to even.  Returns the significand–exponent pair. -/
def round53 (p : Int) (q : Nat) : Int × Int :=
  if p = 0 then (0, 0)
  else if p < 0 then (-(r53mant p.natAbs q : Int), r53exp p.natAbs q - 52)
  else ((r53mant p.natAbs q : Int), r53exp p.natAbs q - 52)

/-- binary64 addition. -/
def fadd (x y : Int × Int) : Int × Int :=
  let em := min x.2 y.2
  let p := x.1 * ((2 ^ (x.2 - em).toNat : Nat) : Int)
      + y.1 * ((2 ^ (y.2 - em).toNat : Nat) : Int)
  let r := round53 p 1
  (r.1, r.2 + em)

/-- binary64 multiplication. -/
def fmul (x y : Int × Int) : Int × Int :=
  let r := round53 (x.1 * y.1) 1
  (r.1, r.2 + x.2 + y.2)

/-- binary64 division (the divisor significand must be nonzero; a zero
divisor would give an IEEE infinity and is excluded at call sites). -/
def fdiv (x y : Int × Int) : Int × Int :=
  let p := if y.1 < 0 then -x.1 else x.1
  let r := round53 p y.1.natAbs
  (r.1, r.2 + x.2 - y.2)

/-- Conversion of an unsigned integer to binary64 (rounds if above
`2 ^ 53`). -/
def fofNat (n : Nat) : Int × Int := round53 (n : Int) 1

/-- Conversion of a signed integer to binary64. -/
def fofInt (i : Int) : Int × Int := round53 i 1

/-- The binary64 value of a decimal literal `num / den` (the C++ compiler
rounds decimal literals to the nearest double). -/
def flit (num den : Nat) : Int × Int := round53 (num : Int) den

/-- Strict comparison of two binary64 values. -/
def flt (x y : Int × Int) : Bool :=
  let em := min x.2 y.2
  x.1 * ((2 ^ (x.2 - em).toNat : Nat) : Int)
    < y.1 * ((2 ^ (y.2 - em).toNat : Nat) : Int)

/-- Truncation of a nonnegative binary64 value to an unsigned integer, as
in a C++ `(uint64_t)` cast of an in-range `double`. -/
def ftruncNat (x : Int × Int) : Nat :=
  if 0 ≤ x.2 then x.1.toNat * 2 ^ x.2.toNat else x.1.toNat / 2 ^ (-x.2).toNat

/-- `boost::math::round`: round half away from zero, to an integer. -/
def froundHalfAway (x : Int × Int) : Int :=
  if 0 ≤ x.2 then x.1 * ((2 ^ x.2.toNat : Nat) : Int)
  else
    let k := (-x.2).toNat
    let r := (2 * x.1.natAbs + 2 ^ k) / 2 ^ (k + 1)
    if x.1 < 0 then -(r : Int) else (r : Int)

/-! ## Block reward (`get_block_reward`, src/unnamed/part_003)

The supply macros `ELECTRONERO_PULSE` and `ELECTRONERO_COINS` are used by
`get_block_reward` but their `#define` lines are not part of this excerpt,
so the two values are taken as parameters `pulse` / `coins` everywhere;
every theorem below holds for all 64-bit values of those parameters. -/

def MONEY_SUPPLY_ETN : Nat := 2100000000000
def MONEY_SUPPLY : Nat := 21000000000000
def TOKENS : Nat := 20000000000000
def ELECTRONERO_TOKENS : Nat := 3610309000000000
def FINAL_SUBSIDY_PER_MINUTE : Nat := 100000000
def CRYPTONOTE_BLOCK_GRANTED_FULL_REWARD_ZONE_V1 : Nat := 20000
def CRYPTONOTE_BLOCK_GRANTED_FULL_REWARD_ZONE_V2 : Nat := 60000
def CRYPTONOTE_BLOCK_GRANTED_FULL_REWARD_ZONE_V5 : Nat := 300000
def DIFFICULTY_TARGET_V1 : Nat := 60
def DIFFICULTY_TARGET_V2 : Nat := 120

def MAINNET_HARDFORK_V7_HEIGHT : Nat := 307003
def MAINNET_HARDFORK_V10_HEIGHT : Nat := 310790
def MAINNET_HARDFORK_V14_HEIGHT : Nat := 337816
def MAINNET_HARDFORK_V16_HEIGHT : Nat := 500060
def MAINNET_HARDFORK_V17_HEIGHT : Nat := 570000
def MAINNET_HARDFORK_V18_HEIGHT : Nat := 659000
def MAINNET_HARDFORK_V19_HEIGHT : Nat := 739800
def MAINNET_HARDFORK_V20_HEIGHT : Nat := 1132596
def MAINNET_HARDFORK_V21_HEIGHT : Nat := 1132900
def MAINNET_HARDFORK_V22_HEIGHT : Nat := 1132935
def MAINNET_HARDFORK_V23_HEIGHT : Nat := 1183409
def MAINNET_HARDFORK_V23_B_HEIGHT : Nat := 1183485

/-- `COIN_EMISSION_HEIGHT_INTERVAL = (uint64_t)(6 * (30.4375 * 24 * 3600) / 120)`:
every intermediate double is exactly representable, and the value is
exactly `131490`. -/
def COIN_EMISSION_HEIGHT_INTERVAL : Nat := 131490

/-- `PEAK_COIN_EMISSION_HEIGHT = (uint64_t)(((12 * 30.4375 * 24 * 3600) / 120) * 4)`:
again exact in binary64, value `1051920`. -/
def PEAK_COIN_EMISSION_HEIGHT : Nat := 1051920

/-- `get_min_block_size(version)`: the full-reward-zone size by epoch. -/
def get_min_block_size (version : Nat) : Nat :=
  if version < 2 then CRYPTONOTE_BLOCK_GRANTED_FULL_REWARD_ZONE_V1
  else if version < 5 then CRYPTONOTE_BLOCK_GRANTED_FULL_REWARD_ZONE_V2
  else CRYPTONOTE_BLOCK_GRANTED_FULL_REWARD_ZONE_V5

/-- `const int target = ...` in `get_block_reward`: 60 s before the v7
fork and from the v14 fork on, 120 s in between. -/
def rewardTarget (height : Nat) : Nat :=
  if height < MAINNET_HARDFORK_V7_HEIGHT then DIFFICULTY_TARGET_V1
  else if MAINNET_HARDFORK_V14_HEIGHT ≤ height then DIFFICULTY_TARGET_V1
  else DIFFICULTY_TARGET_V2

/-- `uint64_t emission_speed = <ternary chain>` of `get_block_reward`:
the epoch-selected emission speed factor.  The factors are computed in
`int` arithmetic (`20 ± (target_minutes ± c)`), modelled in `Int` and
converted like the C++ `int → uint64_t` assignment; every selected value
lies in `[18, 30]`, so the conversion is value-preserving. -/
def emissionSpeed (height : Nat) : Nat :=
  let tm : Int := (rewardTarget height / 60 : Nat)
  (if height < MAINNET_HARDFORK_V7_HEIGHT then 20 - (tm - 1)
   else if height < MAINNET_HARDFORK_V10_HEIGHT then 20 + (tm - 1)
   else if height < MAINNET_HARDFORK_V16_HEIGHT then 20 + (tm - 2)
   else if height < MAINNET_HARDFORK_V17_HEIGHT then 20 - (tm - 1)
   else if height < MAINNET_HARDFORK_V18_HEIGHT then 20 + (tm + 1)
   else if height < MAINNET_HARDFORK_V19_HEIGHT then 20 + (tm + 9)
   else if height < MAINNET_HARDFORK_V20_HEIGHT then 20 + (tm + 6)
   else if height < MAINNET_HARDFORK_V21_HEIGHT then 20 + (tm + 9)
   else if height < MAINNET_HARDFORK_V22_HEIGHT then 20 + (tm + 7)
   else if height < MAINNET_HARDFORK_V23_HEIGHT then 20 + (tm + 9)
   else if height < MAINNET_HARDFORK_V23_B_HEIGHT then 20 + (tm + 8)
   else 20 - (tm - 3)).toNat

/-- `uint64_t COIN_SUPPLY = ...` of `get_block_reward`. -/
def coinSupply (version height pulse coins : Nat) : Nat :=
  let v1 :=
    if version < 7 then MONEY_SUPPLY_ETN
    else if version < 10 then MONEY_SUPPLY
    else if version < 16 then TOKENS
    else ELECTRONERO_TOKENS
  if height < MAINNET_HARDFORK_V20_HEIGHT then v1
  else if height < MAINNET_HARDFORK_V23_B_HEIGHT then pulse
  else coins

/-- `double money_supply_pct = 0.1888 + interval_num*(0.023 + interval_num*0.0032)`,
evaluated in binary64 exactly as the C++ expression tree. -/
def moneySupplyPct (k : Nat) : Int × Int :=
  fadd (flit 1888 10000)
    (fmul (fofNat k) (fadd (flit 23 1000) (fmul (fofNat k) (flit 32 10000))))

/-- The value of `base_reward` at the point where the block-size penalty
is applied (after the emission branch, the multiple-of-10 rounding, the
pre-v2 override and the final-subsidy floor).  The `base_reward`
assignment before the hard-coded height injections in the source is dead
code: both branches of the subsequent `if` reassign it, so it is omitted
here. -/
def baseRewardVal (gen version height pulse coins : Nat) : Nat :=
  let supply := coinSupply version height pulse coins
  let es := emissionSpeed height
  let b0 :=
    if MAINNET_HARDFORK_V7_HEIGHT < height ∧ 7 ≤ version then
      if height < PEAK_COIN_EMISSION_HEIGHT + COIN_EMISSION_HEIGHT_INTERVAL then
        ftruncNat (fmul (fofNat supply)
          (moneySupplyPct (height / COIN_EMISSION_HEIGHT_INTERVAL))) >>> es
      else sub64 supply gen >>> es
    else sub64 supply gen >>> es
  let b1 := if 7 < version then b0 / 10 * 10 else b0
  let b2 := if version < 2 then sub64 MONEY_SUPPLY_ETN gen >>> es else b1
  if b2 < 666 ∧ supply ≤ gen then FINAL_SUBSIDY_PER_MINUTE else b2

/-- `get_block_reward(median_size, current_block_size, already_generated_coins,
reward, version, height)`:
`some reward` on success, `none` when the block is too large. -/
def get_block_reward (median_size current_block_size gen version height
    pulse coins : Nat) : Option Nat :=
  if height = 1 then some 1260000000000
  else if height = 307003 ∨ height = 310790 then some 1260000000000
  else if height = 500060 ∨ height = 1183410 ∨ height = 1183411 ∨
      height = 1183412 ∨ height = 1183413 then some 613090000000000
  else if height = 1132597 then some 3333333333310301990
  else
    let base_reward := baseRewardVal gen version height pulse coins
    let full_reward_zone := get_min_block_size version
    let median :=
      if median_size < full_reward_zone then full_reward_zone else median_size
    if current_block_size ≤ median then some base_reward
    else if lo64 (2 * median) < current_block_size then none
    else
      let multiplicand :=
        lo64 (sub64 (lo64 (2 * median)) current_block_size * current_block_size)
      let product := mulLowHigh base_reward multiplicand
      let r1 := div128_32 product.2 product.1 (median % 2 ^ 32)
      let r2 := div128_32 r1.1 r1.2 (median % 2 ^ 32)
      some r2.2

/-! ## Correctness bounds for the binary64 rounding -/

theorem bitsAux_zero (fuel : Nat) : bitsAux fuel 0 = 0 := by
  cases fuel <;> simp [bitsAux]

theorem bitsAux_correct :
    ∀ fuel n, 0 < n → n < 2 ^ fuel →
      2 ^ (bitsAux fuel n - 1) ≤ n ∧ n < 2 ^ bitsAux fuel n := by
  intro fuel
  induction fuel with
  | zero =>
      intro n h1 h2
      norm_num at h2
      omega
  | succ f ih =>
      intro n hn hlt
      simp only [bitsAux, if_neg (by omega : ¬ n = 0)]
      by_cases h2 : n / 2 = 0
      · have hn1 : n = 1 := by omega
        subst hn1
        rw [h2, bitsAux_zero]
        norm_num
      · have hpow : (2 : Nat) ^ (f + 1) = 2 * 2 ^ f := by rw [pow_succ]; ring
        have hrec := ih (n / 2) (by omega) (by omega)
        set b := bitsAux f (n / 2) with hb
        have hb1 : 1 ≤ b := by
          rcases Nat.eq_zero_or_pos b with h | h
          · rw [h] at hrec; norm_num at hrec; omega
          · exact h
        have hbp : (2 : Nat) ^ b = 2 * 2 ^ (b - 1) := by
          conv_lhs => rw [← Nat.sub_add_cancel hb1, pow_succ]
          ring
        have hbp2 : (2 : Nat) ^ (b + 1) = 2 * 2 ^ b := by rw [pow_succ]; ring
        have hsub : b + 1 - 1 = b := by omega
        rw [hsub]
        omega

theorem bits_correct (n : Nat) (hn : 0 < n) :
    2 ^ (bits n - 1) ≤ n ∧ n < 2 ^ bits n :=
  bitsAux_correct n n hn (Nat.lt_two_pow n)

theorem bits_pos (n : Nat) (hn : 0 < n) : 1 ≤ bits n := by
  rcases Nat.eq_zero_or_pos (bits n) with h | h
  · have := (bits_correct n hn).2
    rw [h] at this; norm_num at this; omega
  · exact h

theorem pow2_eq_zpow (e : Int) : pow2 e = (2 : ℚ) ^ e := by
  unfold pow2
  split
  · next h =>
      rw [show ((2 ^ e.toNat : Nat) : ℚ) = (2 : ℚ) ^ e.toNat by push_cast; ring,
        ← zpow_natCast, Int.toNat_of_nonneg h]
  · next h =>
      rw [show ((2 ^ (-e).toNat : Nat) : ℚ) = (2 : ℚ) ^ (-e).toNat by push_cast; ring,
        ← zpow_natCast, Int.toNat_of_nonneg (by omega), ← zpow_neg, neg_neg]

theorem pow2_pos (e : Int) : 0 < pow2 e := by
  rw [pow2_eq_zpow]
  exact zpow_pos (by norm_num) e

theorem pow2_add (a b : Int) : pow2 (a + b) = pow2 a * pow2 b := by
  rw [pow2_eq_zpow, pow2_eq_zpow, pow2_eq_zpow, zpow_add₀ (by norm_num : (2:ℚ) ≠ 0)]

theorem pow2_zero : pow2 0 = 1 := by norm_num [pow2]

theorem gePow2_iff (a q : Nat) (e : Int) (hq : 0 < q) :
    gePow2 a q e = true ↔ pow2 e ≤ (a : ℚ) / q := by
  have hq' : (0 : ℚ) < q := by exact_mod_cast hq
  unfold gePow2 pow2
  split
  · next h =>
      rw [decide_eq_true_eq, le_div_iff₀ hq',
        show ((2 ^ e.toNat : Nat) : ℚ) * (q : ℚ) = ((2 ^ e.toNat * q : Nat) : ℚ) by
          push_cast; ring,
        Nat.cast_le, Nat.mul_comm]
  · next h =>
      rw [decide_eq_true_eq, inv_eq_one_div, div_le_div_iff₀ (by positivity) hq',
        one_mul,
        show (a : ℚ) * ((2 ^ (-e).toNat : Nat) : ℚ) = ((a * 2 ^ (-e).toNat : Nat) : ℚ) by
          push_cast; ring,
        Nat.cast_le]

theorem r53exp_bracket (a q : Nat) (ha : 0 < a) (hq : 0 < q) :
    pow2 (r53exp a q) ≤ (a : ℚ) / q ∧ (a : ℚ) / q < pow2 (r53exp a q + 1) := by
  obtain ⟨la, ua⟩ := bits_correct a ha
  obtain ⟨lq, uq⟩ := bits_correct q hq
  have hba := bits_pos a ha
  have hbq := bits_pos q hq
  have hq' : (0 : ℚ) < q := by exact_mod_cast hq
  have hq2 : (2 : Nat) ^ bits q = 2 ^ (bits q - 1) * 2 := by
    conv_lhs => rw [← Nat.sub_add_cancel hbq, pow_succ]
  have hupper : (a : ℚ) / q < pow2 ((bits a : Int) - bits q + 1) := by
    rw [show ((bits a : Int) - bits q + 1) = ((bits a + 1 : Nat) : Int) - ((bits q : Nat) : Int) by
      push_cast; ring]
    rw [pow2_eq_zpow, zpow_sub₀ (by norm_num : (2:ℚ) ≠ 0), zpow_natCast, zpow_natCast]
    rw [div_lt_div_iff₀ hq' (by positivity)]
    have hnat : a * 2 ^ bits q < 2 ^ (bits a + 1) * q := by
      calc a * 2 ^ bits q < 2 ^ bits a * 2 ^ bits q := by
            apply mul_lt_mul_of_pos_right ua
            positivity
        _ = 2 ^ (bits a + 1) * 2 ^ (bits q - 1) := by
            rw [hq2, pow_succ]
            ring
        _ ≤ 2 ^ (bits a + 1) * q := Nat.mul_le_mul_left _ lq
    calc (a : ℚ) * 2 ^ bits q = ((a * 2 ^ bits q : Nat) : ℚ) := by push_cast; ring
      _ < ((2 ^ (bits a + 1) * q : Nat) : ℚ) := by exact_mod_cast hnat
      _ = (2 : ℚ) ^ (bits a + 1) * q := by push_cast; ring
  have hlower : pow2 ((bits a : Int) - bits q - 1) ≤ (a : ℚ) / q := by
    rw [show ((bits a : Int) - bits q - 1) = ((bits a - 1 : Nat) : Int) - ((bits q : Nat) : Int) by
      push_cast [hba]; ring]
    rw [pow2_eq_zpow, zpow_sub₀ (by norm_num : (2:ℚ) ≠ 0), zpow_natCast, zpow_natCast]
    rw [div_le_div_iff₀ (by positivity) hq']
    have hnat : 2 ^ (bits a - 1) * q ≤ a * 2 ^ bits q := by
      calc 2 ^ (bits a - 1) * q ≤ 2 ^ (bits a - 1) * 2 ^ bits q :=
            Nat.mul_le_mul_left _ (le_of_lt uq)
        _ ≤ a * 2 ^ bits q := Nat.mul_le_mul_right _ la
    calc (2 : ℚ) ^ (bits a - 1) * q = ((2 ^ (bits a - 1) * q : Nat) : ℚ) := by push_cast; ring
      _ ≤ ((a * 2 ^ bits q : Nat) : ℚ) := by exact_mod_cast hnat
      _ = (a : ℚ) * 2 ^ bits q := by push_cast; ring
  unfold r53exp
  split
  · next h =>
      exact ⟨(gePow2_iff a q _ hq).1 h, hupper⟩
  · next h =>
      constructor
      · exact hlower
      · have := (gePow2_iff a q ((bits a : Int) - bits q) hq).not.1 h
        push_neg at this
        rw [show (bits a : Int) - bits q - 1 + 1 = (bits a : Int) - bits q by ring]
        exact this

theorem r53B_pos (a q : Nat) (hq : 0 < q) : 0 < r53B a q := by
  unfold r53B
  split
  · exact hq
  · positivity

theorem r53AB_val (a q : Nat) (hq : 0 < q) :
    (r53A a q : ℚ) / r53B a q = (a : ℚ) / q * pow2 (52 - r53exp a q) := by
  have hq' : (0 : ℚ) < q := by exact_mod_cast hq
  unfold r53A r53B pow2
  by_cases h : 0 ≤ (52 - r53exp a q : Int)
  · rw [if_pos h, if_pos h, if_pos h]
    push_cast
    ring
  · rw [if_neg h, if_neg h, if_neg h]
    have h2 : (0 : ℚ) < ((2 ^ (-(52 - r53exp a q)).toNat : Nat) : ℚ) := by positivity
    push_cast
    field_simp

theorem r53mant_bounds (a q : Nat) :
    r53A a q / r53B a q ≤ r53mant a q ∧ r53mant a q ≤ r53A a q / r53B a q + 1 := by
  unfold r53mant
  split
  · omega
  · split
    · omega
    · split <;> omega

theorem pow2_neg52 : pow2 (-52) = ((2 : ℚ) ^ 52)⁻¹ := by
  rw [pow2_eq_zpow, show ((-52 : Int)) = -((52 : Nat) : Int) by norm_num, zpow_neg,
    zpow_natCast]

/-- The scaled value `r53A / r53B` is at least `2 ^ 52` (for `a, q > 0`). -/
theorem r53_scaled_ge (a q : Nat) (ha : 0 < a) (hq : 0 < q) :
    (2 : ℚ) ^ 52 ≤ (r53A a q : ℚ) / r53B a q := by
  obtain ⟨hlo, _⟩ := r53exp_bracket a q ha hq
  rw [r53AB_val a q hq]
  calc (2 : ℚ) ^ 52 = pow2 (r53exp a q) * pow2 (52 - r53exp a q) := by
        rw [← pow2_add, show (r53exp a q + (52 - r53exp a q)) = (52 : Int) by ring,
          pow2_eq_zpow]
        norm_num
    _ ≤ (a : ℚ) / q * pow2 (52 - r53exp a q) := by
        apply mul_le_mul_of_nonneg_right hlo (le_of_lt (pow2_pos _))

/-- Main bounds for positive rounding: the result is positive and at most
`(p / q) * (1 + 2⁻⁵²)`. -/
theorem round53_val_bounds (p : Int) (q : Nat) (hp : 0 < p) (hq : 0 < q) :
    0 < (round53 p q).1 ∧
      fval (round53 p q) ≤ (p : ℚ) / q * (1 + ((2 : ℚ) ^ 52)⁻¹) := by
  have hq' : (0 : ℚ) < q := by exact_mod_cast hq
  have hpne : ¬ p = 0 := by omega
  have hpneg : ¬ p < 0 := by omega
  have ha : 0 < p.natAbs := by omega
  set a := p.natAbs with hadef
  have hcast : ((a : Nat) : ℚ) = (p : ℚ) := by
    have : ((a : Nat) : Int) = p := Int.natAbs_of_nonneg (by omega)
    exact_mod_cast congrArg (Int.cast : Int → ℚ) this
  have hround : round53 p q = ((r53mant a q : Int), r53exp a q - 52) := by
    unfold round53
    rw [if_neg hpne, if_neg hpneg]
  obtain ⟨hlo, hhi⟩ := r53exp_bracket a q ha hq
  have hBpos : 0 < r53B a q := r53B_pos a q hq
  have hBpos' : (0 : ℚ) < r53B a q := by exact_mod_cast hBpos
  obtain ⟨hm1, hm2⟩ := r53mant_bounds a q
  have hscaled := r53_scaled_ge a q ha hq
  -- the mantissa is positive
  have hmant : 0 < r53mant a q := by
    have hBA : r53B a q ≤ r53A a q := by
      by_contra hcon
      push_neg at hcon
      have : (r53A a q : ℚ) / r53B a q < 1 := by
        rw [div_lt_one hBpos']
        exact_mod_cast hcon
      have h52 : (1 : ℚ) ≤ 2 ^ 52 := by norm_num
      linarith [hscaled]
    have : 1 ≤ r53A a q / r53B a q := (Nat.one_le_div_iff hBpos).2 hBA
    omega
  -- the value bound
  have hdivlt : (r53A a q : ℚ) / r53B a q < (r53A a q / r53B a q : Nat) + 1 := by
    rw [div_lt_iff₀ hBpos']
    have h1 := Nat.div_add_mod (r53A a q) (r53B a q)
    have h2 := Nat.mod_lt (r53A a q) hBpos
    rw [Nat.mul_comm] at h1
    have : r53A a q < (r53A a q / r53B a q + 1) * r53B a q := by
      rw [Nat.succ_mul]
      omega
    calc (r53A a q : ℚ) < (((r53A a q / r53B a q + 1) * r53B a q : Nat) : ℚ) := by
          exact_mod_cast this
      _ = ((r53A a q / r53B a q : Nat) + 1) * (r53B a q : ℚ) := by push_cast; ring
  have hval : fval (round53 p q) = (r53mant a q : ℚ) * pow2 (r53exp a q - 52) := by
    rw [hround]
    unfold fval
    push_cast
    ring
  constructor
  · rw [hround]
    dsimp only
    exact_mod_cast hmant
  · rw [hval]
    have step1' : (r53mant a q : ℚ) ≤ (r53A a q : ℚ) / r53B a q + 1 := by
      have hfloor : ((r53A a q / r53B a q : Nat) : ℚ) ≤ (r53A a q : ℚ) / r53B a q :=
        Nat.cast_div_le
      have : (r53mant a q : ℚ) ≤ ((r53A a q / r53B a q : Nat) : ℚ) + 1 := by
        exact_mod_cast hm2
      linarith
    have hpow2pos := pow2_pos (r53exp a q - 52)
    calc (r53mant a q : ℚ) * pow2 (r53exp a q - 52)
        ≤ ((r53A a q : ℚ) / r53B a q + 1) * pow2 (r53exp a q - 52) := by
          apply mul_le_mul_of_nonneg_right step1' (le_of_lt hpow2pos)
      _ = (a : ℚ) / q * (pow2 (52 - r53exp a q) * pow2 (r53exp a q - 52))
            + pow2 (r53exp a q - 52) := by
          rw [r53AB_val a q hq]
          ring
      _ = (a : ℚ) / q + pow2 (r53exp a q - 52) := by
          rw [← pow2_add, show (52 - r53exp a q + (r53exp a q - 52)) = (0 : Int) by ring,
            pow2_zero]
          ring
      _ ≤ (a : ℚ) / q + (a : ℚ) / q * ((2 : ℚ) ^ 52)⁻¹ := by
          have : pow2 (r53exp a q - 52) = pow2 (r53exp a q) * ((2 : ℚ) ^ 52)⁻¹ := by
            rw [show (r53exp a q - 52 : Int) = r53exp a q + (-52) by ring, pow2_add,
              pow2_neg52]
          rw [this]
          have h52 : (0 : ℚ) < ((2 : ℚ) ^ 52)⁻¹ := by positivity
          nlinarith [hlo, h52]
      _ = (a : ℚ) / q * (1 + ((2 : ℚ) ^ 52)⁻¹) := by ring
      _ = (p : ℚ) / q * (1 + ((2 : ℚ) ^ 52)⁻¹) := by rw [hcast]

theorem fval_pos (x : Int × Int) (hx : 0 < x.1) : 0 < fval x := by
  unfold fval
  exact mul_pos (by exact_mod_cast hx) (pow2_pos _)

theorem ftruncNat_cast_le (x : Int × Int) (hx : 0 ≤ x.1) :
    (ftruncNat x : ℚ) ≤ fval x := by
  have hcast : ((x.1.toNat : Nat) : ℚ) = ((x.1 : Int) : ℚ) := by
    exact_mod_cast congrArg (Int.cast : Int → ℚ) (Int.toNat_of_nonneg hx)
  unfold ftruncNat fval pow2
  split
  · next h =>
      have : ((x.1.toNat * 2 ^ x.2.toNat : Nat) : ℚ)
          = (x.1 : ℚ) * ((2 ^ x.2.toNat : Nat) : ℚ) := by
        push_cast
        rw [hcast]
      rw [this]
  · next h =>
      calc ((x.1.toNat / 2 ^ (-x.2).toNat : Nat) : ℚ)
          ≤ (x.1.toNat : ℚ) / ((2 ^ (-x.2).toNat : Nat) : ℚ) := Nat.cast_div_le
        _ = (x.1 : ℚ) * (((2 ^ (-x.2).toNat : Nat) : ℚ))⁻¹ := by
            rw [div_eq_mul_inv, hcast]

theorem fmul_bounds (x y : Int × Int) (hx : 0 < x.1) (hy : 0 < y.1) :
    0 < (fmul x y).1 ∧
      fval (fmul x y) ≤ fval x * fval y * (1 + ((2 : ℚ) ^ 52)⁻¹) := by
  have hp : 0 < x.1 * y.1 := mul_pos hx hy
  obtain ⟨h1, h2⟩ := round53_val_bounds (x.1 * y.1) 1 hp one_pos
  have hsplit : fval (fmul x y) = fval (round53 (x.1 * y.1) 1) * pow2 (x.2 + y.2) := by
    unfold fmul fval
    dsimp only
    rw [show ((round53 (x.1 * y.1) 1).2 + x.2 + y.2)
        = (round53 (x.1 * y.1) 1).2 + (x.2 + y.2) by ring, pow2_add]
    ring
  refine ⟨h1, ?_⟩
  rw [hsplit]
  have h2' : fval (round53 (x.1 * y.1) 1) ≤ (x.1 : ℚ) * (y.1 : ℚ) * (1 + ((2 : ℚ) ^ 52)⁻¹) := by
    calc fval (round53 (x.1 * y.1) 1)
        ≤ ((x.1 * y.1 : Int) : ℚ) / ((1 : Nat) : ℚ) * (1 + ((2 : ℚ) ^ 52)⁻¹) := h2
      _ = (x.1 : ℚ) * (y.1 : ℚ) * (1 + ((2 : ℚ) ^ 52)⁻¹) := by push_cast; ring
  calc fval (round53 (x.1 * y.1) 1) * pow2 (x.2 + y.2)
      ≤ (x.1 : ℚ) * (y.1 : ℚ) * (1 + ((2 : ℚ) ^ 52)⁻¹) * pow2 (x.2 + y.2) :=
        mul_le_mul_of_nonneg_right h2' (le_of_lt (pow2_pos _))
    _ = fval x * fval y * (1 + ((2 : ℚ) ^ 52)⁻¹) := by
        unfold fval
        rw [pow2_add]
        ring

set_option maxRecDepth 8000 in
theorem moneySupplyPct_pairs :
    moneySupplyPct 0 = (6802236877180397, -55) ∧
    moneySupplyPct 1 = (7746191359077253, -55) ∧
    moneySupplyPct 2 = (8920730141895478, -55) ∧
    moneySupplyPct 3 = (5162926612817537, -54) ∧
    moneySupplyPct 4 = (5980780305148018, -54) ∧
    moneySupplyPct 5 = (6913926147939186, -54) ∧
    moneySupplyPct 6 = (7962364141191036, -54) ∧
    moneySupplyPct 7 = (4563047142451786, -53) ∧
    moneySupplyPct 8 = (5202558289538397, -53) := by
  refine ⟨?_, ?_, ?_, ?_, ?_, ?_, ?_, ?_, ?_⟩ <;> decide

theorem fval_pair_neg_exp (m : Nat) (t : Nat) :
    fval ((m : Int), -(t : Int)) = (m : ℚ) / 2 ^ t := by
  unfold fval pow2
  rcases Nat.eq_zero_or_pos t with h | h
  · subst h
    norm_num
  · rw [if_neg (by omega)]
    rw [show (-(-(t : Int))).toNat = t by omega]
    push_cast
    rw [div_eq_mul_inv]

theorem moneySupplyPct_bounds (k : Nat) (hk : k ≤ 8) :
    0 < (moneySupplyPct k).1 ∧ fval (moneySupplyPct k) ≤ 29 / 50 := by
  obtain ⟨e0, e1, e2, e3, e4, e5, e6, e7, e8⟩ := moneySupplyPct_pairs
  interval_cases k
  · rw [e0]
    refine ⟨by norm_num, ?_⟩
    rw [show ((6802236877180397 : Int), (-55 : Int))
        = (((6802236877180397 : Nat) : Int), -((55 : Nat) : Int)) by norm_num,
      fval_pair_neg_exp]
    norm_num
  · rw [e1]
    refine ⟨by norm_num, ?_⟩
    rw [show ((7746191359077253 : Int), (-55 : Int))
        = (((7746191359077253 : Nat) : Int), -((55 : Nat) : Int)) by norm_num,
      fval_pair_neg_exp]
    norm_num
  · rw [e2]
    refine ⟨by norm_num, ?_⟩
    rw [show ((8920730141895478 : Int), (-55 : Int))
        = (((8920730141895478 : Nat) : Int), -((55 : Nat) : Int)) by norm_num,
      fval_pair_neg_exp]
    norm_num
  · rw [e3]
    refine ⟨by norm_num, ?_⟩
    rw [show ((5162926612817537 : Int), (-54 : Int))
        = (((5162926612817537 : Nat) : Int), -((54 : Nat) : Int)) by norm_num,
      fval_pair_neg_exp]
    norm_num
  · rw [e4]
    refine ⟨by norm_num, ?_⟩
    rw [show ((5980780305148018 : Int), (-54 : Int))
        = (((5980780305148018 : Nat) : Int), -((54 : Nat) : Int)) by norm_num,
      fval_pair_neg_exp]
    norm_num
  · rw [e5]
    refine ⟨by norm_num, ?_⟩
    rw [show ((6913926147939186 : Int), (-54 : Int))
        = (((6913926147939186 : Nat) : Int), -((54 : Nat) : Int)) by norm_num,
      fval_pair_neg_exp]
    norm_num
  · rw [e6]
    refine ⟨by norm_num, ?_⟩
    rw [show ((7962364141191036 : Int), (-54 : Int))
        = (((7962364141191036 : Nat) : Int), -((54 : Nat) : Int)) by norm_num,
      fval_pair_neg_exp]
    norm_num
  · rw [e7]
    refine ⟨by norm_num, ?_⟩
    rw [show ((4563047142451786 : Int), (-53 : Int))
        = (((4563047142451786 : Nat) : Int), -((53 : Nat) : Int)) by norm_num,
      fval_pair_neg_exp]
    norm_num
  · rw [e8]
    refine ⟨by norm_num, ?_⟩
    rw [show ((5202558289538397 : Int), (-53 : Int))
        = (((5202558289538397 : Nat) : Int), -((53 : Nat) : Int)) by norm_num,
      fval_pair_neg_exp]
    norm_num

theorem ftruncNat_fmul_zero (y : Int × Int) : ftruncNat (fmul (0, 0) y) = 0 := by
  unfold fmul round53 ftruncNat
  norm_num

/-- The truncated emission product `(uint64_t)(COIN_SUPPLY * money_supply_pct)`
stays below `2 ^ 64` for every 64-bit supply and every interval index
`k ≤ 8`, so the C++ double-to-integer cast is well defined there. -/
theorem emission_fp_lt (supply k : Nat) (hs : supply < 2 ^ 64) (hk : k ≤ 8) :
    ftruncNat (fmul (fofNat supply) (moneySupplyPct k)) < 2 ^ 64 := by
  rcases Nat.eq_zero_or_pos supply with h0 | hpos
  · subst h0
    rw [show fofNat 0 = ((0 : Int), (0 : Int)) from rfl, ftruncNat_fmul_zero]
    positivity
  · obtain ⟨hS1, hS2⟩ :=
      round53_val_bounds (supply : Int) 1 (by exact_mod_cast hpos) one_pos
    obtain ⟨hP1, hP2⟩ := moneySupplyPct_bounds k hk
    obtain ⟨hX1, hX2⟩ := fmul_bounds (fofNat supply) (moneySupplyPct k) hS1 hP1
    have hfS : fval (fofNat supply) ≤ (supply : ℚ) * (1 + ((2 : ℚ) ^ 52)⁻¹) := by
      calc fval (fofNat supply)
          ≤ ((supply : Int) : ℚ) / ((1 : Nat) : ℚ) * (1 + ((2 : ℚ) ^ 52)⁻¹) := hS2
        _ = (supply : ℚ) * (1 + ((2 : ℚ) ^ 52)⁻¹) := by push_cast; ring
    have hfSpos : 0 < fval (fofNat supply) := fval_pos _ hS1
    have hfPpos : 0 < fval (moneySupplyPct k) := fval_pos _ hP1
    have hsup : (supply : ℚ) ≤ 2 ^ 64 - 1 := by
      have : (supply : ℚ) ≤ ((2 ^ 64 - 1 : Nat) : ℚ) := by exact_mod_cast (by omega : supply ≤ 2 ^ 64 - 1)
      calc (supply : ℚ) ≤ ((2 ^ 64 - 1 : Nat) : ℚ) := this
        _ = 2 ^ 64 - 1 := by push_cast; ring
    have hvX : fval (fmul (fofNat supply) (moneySupplyPct k)) < 2 ^ 64 := by
      have heps : (0 : ℚ) < 1 + ((2 : ℚ) ^ 52)⁻¹ := by positivity
      calc fval (fmul (fofNat supply) (moneySupplyPct k))
          ≤ fval (fofNat supply) * fval (moneySupplyPct k) * (1 + ((2 : ℚ) ^ 52)⁻¹) := hX2
        _ ≤ ((supply : ℚ) * (1 + ((2 : ℚ) ^ 52)⁻¹)) * (29 / 50) * (1 + ((2 : ℚ) ^ 52)⁻¹) := by
            have h1 : fval (fofNat supply) * fval (moneySupplyPct k)
                ≤ ((supply : ℚ) * (1 + ((2 : ℚ) ^ 52)⁻¹)) * (29 / 50) := by
              apply mul_le_mul hfS hP2 (le_of_lt hfPpos)
              positivity
            exact mul_le_mul_of_nonneg_right h1 (le_of_lt heps)
        _ ≤ ((2 ^ 64 - 1 : ℚ) * (1 + ((2 : ℚ) ^ 52)⁻¹)) * (29 / 50) * (1 + ((2 : ℚ) ^ 52)⁻¹) := by
            have : (supply : ℚ) * (1 + ((2 : ℚ) ^ 52)⁻¹)
                ≤ (2 ^ 64 - 1 : ℚ) * (1 + ((2 : ℚ) ^ 52)⁻¹) :=
              mul_le_mul_of_nonneg_right hsup (le_of_lt heps)
            have h29 : (0 : ℚ) ≤ 29 / 50 := by norm_num
            apply mul_le_mul_of_nonneg_right _ (le_of_lt heps)
            exact mul_le_mul_of_nonneg_right this h29
        _ < 2 ^ 64 := by norm_num
    have := ftruncNat_cast_le (fmul (fofNat supply) (moneySupplyPct k)) (le_of_lt hX1)
    have hfin : ((ftruncNat (fmul (fofNat supply) (moneySupplyPct k)) : Nat) : ℚ) < 2 ^ 64 :=
      lt_of_le_of_lt this hvX
    exact_mod_cast hfin

theorem sub64_lt (a b : Nat) : sub64 a b < 2 ^ 64 := by
  unfold sub64
  exact Nat.mod_lt _ (by norm_num)

theorem coinSupply_lt (version height pulse coins : Nat)
    (hp : pulse < 2 ^ 64) (hc : coins < 2 ^ 64) :
    coinSupply version height pulse coins < 2 ^ 64 := by
  simp only [coinSupply, MONEY_SUPPLY_ETN, MONEY_SUPPLY, TOKENS, ELECTRONERO_TOKENS]
  split_ifs <;> first | exact hp | exact hc | norm_num

theorem emission_interval_le (height : Nat)
    (hh : height < PEAK_COIN_EMISSION_HEIGHT + COIN_EMISSION_HEIGHT_INTERVAL) :
    height / COIN_EMISSION_HEIGHT_INTERVAL ≤ 8 := by
  have h1 : height ≤ 1183409 := by
    unfold PEAK_COIN_EMISSION_HEIGHT COIN_EMISSION_HEIGHT_INTERVAL at hh
    omega
  calc height / COIN_EMISSION_HEIGHT_INTERVAL
      ≤ 1183409 / COIN_EMISSION_HEIGHT_INTERVAL := Nat.div_le_div_right h1
    _ = 8 := by norm_num [COIN_EMISSION_HEIGHT_INTERVAL]

theorem baseRewardVal_lt (gen version height pulse coins : Nat)
    (hp : pulse < 2 ^ 64) (hc : coins < 2 ^ 64) :
    baseRewardVal gen version height pulse coins < 2 ^ 64 := by
  have hsup := coinSupply_lt version height pulse coins hp hc
  have hshift : ∀ b : Nat, b < 2 ^ 64 → b >>> emissionSpeed height < 2 ^ 64 := by
    intro b hb
    calc b >>> emissionSpeed height = b / 2 ^ emissionSpeed height := by
          rw [Nat.shiftRight_eq_div_pow]
      _ ≤ b := Nat.div_le_self _ _
      _ < 2 ^ 64 := hb
  have hB0 :
      (if MAINNET_HARDFORK_V7_HEIGHT < height ∧ 7 ≤ version then
        (if height < PEAK_COIN_EMISSION_HEIGHT + COIN_EMISSION_HEIGHT_INTERVAL then
          ftruncNat (fmul (fofNat (coinSupply version height pulse coins))
            (moneySupplyPct (height / COIN_EMISSION_HEIGHT_INTERVAL)))
            >>> emissionSpeed height
        else sub64 (coinSupply version height pulse coins) gen >>> emissionSpeed height)
      else sub64 (coinSupply version height pulse coins) gen >>> emissionSpeed height)
      < 2 ^ 64 := by
    split
    · split
      · next hh =>
          exact hshift _ (emission_fp_lt _ _ hsup (emission_interval_le height hh))
      · exact hshift _ (sub64_lt _ _)
    · exact hshift _ (sub64_lt _ _)
  have hB2 :
      (if version < 2 then sub64 MONEY_SUPPLY_ETN gen >>> emissionSpeed height
       else if 7 < version then
        (if MAINNET_HARDFORK_V7_HEIGHT < height ∧ 7 ≤ version then
          (if height < PEAK_COIN_EMISSION_HEIGHT + COIN_EMISSION_HEIGHT_INTERVAL then
            ftruncNat (fmul (fofNat (coinSupply version height pulse coins))
              (moneySupplyPct (height / COIN_EMISSION_HEIGHT_INTERVAL)))
              >>> emissionSpeed height
          else sub64 (coinSupply version height pulse coins) gen >>> emissionSpeed height)
        else sub64 (coinSupply version height pulse coins) gen >>> emissionSpeed height)
          / 10 * 10
       else
        (if MAINNET_HARDFORK_V7_HEIGHT < height ∧ 7 ≤ version then
          (if height < PEAK_COIN_EMISSION_HEIGHT + COIN_EMISSION_HEIGHT_INTERVAL then
            ftruncNat (fmul (fofNat (coinSupply version height pulse coins))
              (moneySupplyPct (height / COIN_EMISSION_HEIGHT_INTERVAL)))
              >>> emissionSpeed height
          else sub64 (coinSupply version height pulse coins) gen >>> emissionSpeed height)
        else sub64 (coinSupply version height pulse coins) gen >>> emissionSpeed height))
      < 2 ^ 64 := by
    split
    · exact hshift _ (sub64_lt _ _)
    · split
      · calc _ / 10 * 10 ≤ _ := Nat.div_mul_le_self _ _
          _ < 2 ^ 64 := hB0
      · exact hB0
  have main : ∀ b2 : Nat, b2 < 2 ^ 64 →
      (if b2 < 666 ∧ coinSupply version height pulse coins ≤ gen then
        FINAL_SUBSIDY_PER_MINUTE else b2) < 2 ^ 64 := by
    intro b2 h
    split
    · norm_num [FINAL_SUBSIDY_PER_MINUTE]
    · exact h
  simp only [baseRewardVal]
  exact main _ hB2

/-! ## Claims about the reward function -/

/-- C2: the hard-coded genesis/airdrop reward injections are checked
before the emission formula and the block-size penalty and return
immediately: heights 1, 307003, 310790 pay `1_260_000_000_000`; heights
500060 and 1183410–1183413 pay `613_090_000_000_000`; height 1132597 pays
`3_333_333_333_310_301_990` — for every median size, current size,
already-generated supply, version and supply parameters. -/
theorem get_block_reward_injections (m c g v p k : Nat) :
    get_block_reward m c g v 1 p k = some 1260000000000 ∧
    get_block_reward m c g v 307003 p k = some 1260000000000 ∧
    get_block_reward m c g v 310790 p k = some 1260000000000 ∧
    get_block_reward m c g v 500060 p k = some 613090000000000 ∧
    get_block_reward m c g v 1183410 p k = some 613090000000000 ∧
    get_block_reward m c g v 1183411 p k = some 613090000000000 ∧
    get_block_reward m c g v 1183412 p k = some 613090000000000 ∧
    get_block_reward m c g v 1183413 p k = some 613090000000000 ∧
    get_block_reward m c g v 1132597 p k = some 3333333333310301990 := by
  refine ⟨?_, ?_, ?_, ?_, ?_, ?_, ?_, ?_, ?_⟩ <;> norm_num [get_block_reward]

/-- C6 counterexample: at `(median 60000, current 60000, generated 0,
version 7, height 307100)` the reward is not
`(MONEY_SUPPLY − 0) >> (20 + 1)` rounded down to a multiple of 10
(which would be 10013580): height 307100 lies in the post-v7 polynomial
emission region, and version 7 does not trigger the `version > 7`
rounding. -/
theorem get_block_reward_scenario4_refuted :
    get_block_reward 60000 60000 0 7 307100 0 0
      ≠ some ((MONEY_SUPPLY - 0) >>> (20 + 1) / 10 * 10) := by
  decide

/-- C6 amended: at that input the reward is the polynomial-branch base
reward `(uint64_t)(double(MONEY_SUPPLY) * pct) >> 21` with
`pct = 0.1888 + 2*(0.023 + 2*0.0032)` evaluated in binary64 and
`21 = emission_speed`, with no multiple-of-10 rounding; concretely
`2479362` — for every value of the two supply parameters. -/
theorem get_block_reward_at_307100 (pulse coins : Nat) :
    get_block_reward 60000 60000 0 7 307100 pulse coins
      = some (ftruncNat (fmul (fofNat MONEY_SUPPLY)
          (moneySupplyPct (307100 / COIN_EMISSION_HEIGHT_INTERVAL)))
          >>> emissionSpeed 307100) ∧
    get_block_reward 60000 60000 0 7 307100 pulse coins = some 2479362 := by
  have hsup : coinSupply 7 307100 pulse coins = MONEY_SUPPLY := by
    norm_num [coinSupply, MAINNET_HARDFORK_V20_HEIGHT]
  have hbase : baseRewardVal 0 7 307100 pulse coins
      = ftruncNat (fmul (fofNat MONEY_SUPPLY)
          (moneySupplyPct (307100 / COIN_EMISSION_HEIGHT_INTERVAL)))
          >>> emissionSpeed 307100 := by
    simp only [baseRewardVal, hsup]
    norm_num [MAINNET_HARDFORK_V7_HEIGHT, PEAK_COIN_EMISSION_HEIGHT,
      COIN_EMISSION_HEIGHT_INTERVAL, MONEY_SUPPLY]
  have hmain : get_block_reward 60000 60000 0 7 307100 pulse coins
      = some (baseRewardVal 0 7 307100 pulse coins) := by
    simp only [get_block_reward]
    norm_num [get_min_block_size, CRYPTONOTE_BLOCK_GRANTED_FULL_REWARD_ZONE_V5]
  refine ⟨by rw [hmain, hbase], ?_⟩
  rw [hmain, hbase]
  decide

/-- The heights receiving a hard-coded reward injection. -/
def isInjectedHeight (h : Nat) : Prop :=
  h = 1 ∨ h = 307003 ∨ h = 310790 ∨ h = 500060 ∨ h = 1183410 ∨
  h = 1183411 ∨ h = 1183412 ∨ h = 1183413 ∨ h = 1132597

instance (h : Nat) : Decidable (isInjectedHeight h) := by
  unfold isInjectedHeight
  infer_instance

/-- C3 counterexample: at `(median 0, current 30000, generated
MONEY_SUPPLY_ETN − 1, version 1, height 2)` the computed base reward is 0,
the call succeeds with reward 0 = base reward, yet
`current_size > max(median_size, Z)` — so "equality iff
`current_size ≤ max(median_size, Z)`" fails on the code. -/
theorem get_block_reward_cap_refuted :
    get_block_reward 0 30000 2099999999999 1 2 0 0 = some 0 ∧
    baseRewardVal 2099999999999 1 2 0 0 = 0 ∧
    ¬ (30000 ≤ max 0 (get_min_block_size 1)) := by
  refine ⟨by decide, by decide, by decide⟩

theorem penalty_mult_lt_sq (M c : Nat) (h1 : M < c) (h2 : c ≤ 2 * M) :
    (2 * M - c) * c < M * M := by
  zify [h2]
  nlinarith [sq_nonneg ((c : Int) - M)]

/-- C3 amended: for every non-injected input on which `get_block_reward`
succeeds (with 32-bit block sizes and 64-bit supplies, as the source
asserts and the data model requires), the returned reward is at most the
computed base reward, and it equals the base reward iff
`current_size ≤ max(median_size, Z)` **or the base reward is zero** (in
the zero case the quadratic penalty also returns 0, so equality holds even
for oversized blocks). -/
theorem get_block_reward_le_base (median current gen version height pulse coins r : Nat)
    (hm : median < 2 ^ 32) (hcur : current < 2 ^ 32)
    (hpu : pulse < 2 ^ 64) (hco : coins < 2 ^ 64)
    (hni : ¬ isInjectedHeight height)
    (hr : get_block_reward median current gen version height pulse coins = some r) :
    r ≤ baseRewardVal gen version height pulse coins ∧
      (r = baseRewardVal gen version height pulse coins ↔
        current ≤ max median (get_min_block_size version) ∨
          baseRewardVal gen version height pulse coins = 0) := by
  have hB := baseRewardVal_lt gen version height pulse coins hpu hco
  unfold isInjectedHeight at hni
  push_neg at hni
  obtain ⟨h1, h2, h3, h4, h5, h6, h7, h8, h9⟩ := hni
  unfold get_block_reward at hr
  rw [if_neg h1, if_neg (by tauto : ¬ (height = 307003 ∨ height = 310790)),
    if_neg (by tauto :
      ¬ (height = 500060 ∨ height = 1183410 ∨ height = 1183411 ∨
        height = 1183412 ∨ height = 1183413)),
    if_neg h9] at hr
  set B := baseRewardVal gen version height pulse coins with hBdef
  set Z := get_min_block_size version with hZdef
  have hZr : 20000 ≤ Z ∧ Z ≤ 300000 := by
    rw [hZdef]
    unfold get_min_block_size CRYPTONOTE_BLOCK_GRANTED_FULL_REWARD_ZONE_V1
      CRYPTONOTE_BLOCK_GRANTED_FULL_REWARD_ZONE_V2
      CRYPTONOTE_BLOCK_GRANTED_FULL_REWARD_ZONE_V5
    split_ifs <;> omega
  set M := if median < Z then Z else median with hMdef
  have hMmax : M = max median Z := by
    rw [hMdef, Nat.max_def]
    split_ifs <;> omega
  have hM32 : M < 2 ^ 32 := by
    rw [hMdef]
    split_ifs <;> omega
  have hMpos : 0 < M := by
    rw [hMdef]
    split_ifs <;> omega
  have hMM : M * M < 2 ^ 64 := by
    calc M * M < 2 ^ 32 * 2 ^ 32 := Nat.mul_lt_mul'' hM32 hM32
      _ = 2 ^ 64 := by norm_num
  have hlo2M : lo64 (2 * M) = 2 * M := Nat.mod_eq_of_lt (by omega)
  have hMmod : M % 2 ^ 32 = M := Nat.mod_eq_of_lt hM32
  simp only at hr
  rw [← hMdef] at hr
  split at hr
  · next hle =>
      have hrB : r = B := (Option.some.inj hr).symm
      subst hrB
      refine ⟨le_refl _, ?_⟩
      rw [hMmax] at hle
      exact iff_of_true rfl (Or.inl hle)
  · next hgt =>
      push_neg at hgt
      split at hr
      · exact absurd hr (by simp)
      · next hnlt =>
          rw [hlo2M] at hnlt
          push_neg at hnlt
          rw [hlo2M] at hr
          -- arithmetic of the penalty branch
          have hsub : sub64 (2 * M) current = 2 * M - current := by
            unfold sub64
            have e1 : 2 * M + 2 ^ 64 - current = (2 * M - current) + 2 ^ 64 := by omega
            rw [e1, Nat.add_mod_right]
            exact Nat.mod_eq_of_lt (by omega)
          have hmlt : (2 * M - current) * current < M * M :=
            penalty_mult_lt_sq M current hgt hnlt
          have hmulo : lo64 ((2 * M - current) * current) = (2 * M - current) * current :=
            Nat.mod_eq_of_lt (lt_trans hmlt hMM)
          rw [hsub, hmulo] at hr
          set mult := (2 * M - current) * current with hmultdef
          have hBm : B * mult < 2 ^ 128 := by
            calc B * mult < 2 ^ 64 * 2 ^ 64 :=
                  Nat.mul_lt_mul'' hB (lt_trans hmlt hMM)
              _ = 2 ^ 128 := by norm_num
          have hrec1 : hi64 (B * mult) * 2 ^ 64 + lo64 (B * mult) = B * mult := by
            unfold hi64 lo64
            omega
          unfold mulLowHigh div128_32 at hr
          dsimp only at hr
          rw [hMmod, hrec1] at hr
          set q1 := B * mult / M with hq1def
          have hrec2 : q1 / 2 ^ 64 * 2 ^ 64 + q1 % 2 ^ 64 = q1 := by omega
          rw [hrec2] at hr
          have hq2 : q1 / M = B * mult / (M * M) := by
            rw [hq1def, Nat.div_div_eq_div_mul]
          have hq2B : B * mult / (M * M) ≤ B := by
            calc B * mult / (M * M) ≤ B * (M * M) / (M * M) :=
                  Nat.div_le_div_right (Nat.mul_le_mul_left B (le_of_lt hmlt))
              _ = B := Nat.mul_div_cancel B (by positivity)
          have hq2lt : q1 / M < 2 ^ 64 := by
            rw [hq2]
            exact lt_of_le_of_lt hq2B hB
          have hrval : r = B * mult / (M * M) := by
            have hinj := Option.some.inj hr
            rw [Nat.mod_eq_of_lt hq2lt] at hinj
            rw [← hinj, hq2]
          have hnotle : ¬ current ≤ max median Z := by
            rw [← hMmax]
            omega
          constructor
          · rw [hrval]
            exact hq2B
          · constructor
            · intro he
              right
              rcases Nat.eq_zero_or_pos B with hB0 | hBpos
              · exact hB0
              · exfalso
                have hlt : B * mult / (M * M) < B := by
                  rw [Nat.div_lt_iff_lt_mul (by positivity : 0 < M * M)]
                  exact mul_lt_mul_of_pos_left hmlt hBpos
                omega
            · intro hor
              rcases hor with hle | hB0
              · exact absurd hle hnotle
              · rw [hrval, hB0]
                simp

/-- Witness for C3 at the concrete input of the counterexample. -/
theorem get_block_reward_le_base_witness :
    0 ≤ baseRewardVal 2099999999999 1 2 0 0 ∧
      (0 = baseRewardVal 2099999999999 1 2 0 0 ↔
        30000 ≤ max 0 (get_min_block_size 1) ∨
          baseRewardVal 2099999999999 1 2 0 0 = 0) :=
  get_block_reward_le_base 0 30000 2099999999999 1 2 0 0 0
    (by decide) (by decide) (by decide) (by decide) (by decide) (by decide)

/-! ## Difficulty retargeting (src/unnamed/part_003, `difficulty.cpp`) -/

def DIFFICULTY_WINDOW : Nat := 720
def DIFFICULTY_CUT : Nat := 60
def DIFFICULTY_WINDOW_V2 : Nat := 70
def DIFFICULTY_BLOCKS_COUNT_V12 : Nat := DIFFICULTY_WINDOW_V2

/-- Insert into a sorted list (ascending). -/
def insertSorted (x : Nat) : List Nat → List Nat
  | [] => [x]
  | y :: ys => if x ≤ y then x :: y :: ys else y :: insertSorted x ys

/-- `std::sort` ascending on a list of naturals. -/
def sortNat (l : List Nat) : List Nat := l.foldr insertSorted []

/-- `next_difficulty` (v1): classic windowed trimmed calculation.  The
final `(low + time_span - 1) / time_span` is computed in wrapping 64-bit
arithmetic exactly as in the source; only the low word of the 128-bit
product is used. -/
def next_difficulty (timestamps cumulative_difficulties : List Nat)
    (target_seconds : Nat) : Nat :=
  let ts := if timestamps.length > DIFFICULTY_WINDOW
    then timestamps.take DIFFICULTY_WINDOW else timestamps
  let cd := if timestamps.length > DIFFICULTY_WINDOW
    then cumulative_difficulties.take DIFFICULTY_WINDOW else cumulative_difficulties
  let length := ts.length
  if length ≤ 1 then 1
  else
    let sorted := sortNat ts
    let cutB := if length ≤ DIFFICULTY_WINDOW - 2 * DIFFICULTY_CUT then 0
      else (length - (DIFFICULTY_WINDOW - 2 * DIFFICULTY_CUT) + 1) / 2
    let cutE := if length ≤ DIFFICULTY_WINDOW - 2 * DIFFICULTY_CUT then length
      else cutB + (DIFFICULTY_WINDOW - 2 * DIFFICULTY_CUT)
    let timeSpan0 := sub64 (sorted.getD (cutE - 1) 0) (sorted.getD cutB 0)
    let timeSpan := if timeSpan0 = 0 then 1 else timeSpan0
    let totalWork := sub64 (cd.getD (cutE - 1) 0) (cd.getD cutB 0)
    let low := lo64 (totalWork * target_seconds)
    lo64 (low + timeSpan - 1) / timeSpan

/-- `next_difficulty_v2`: identical to v1 plus the overflow guard that
returns 1 when the 128-bit product has a nonzero high word or the
`+ time_span - 1` addition wraps. -/
def next_difficulty_v2 (timestamps cumulative_difficulties : List Nat)
    (target_seconds : Nat) : Nat :=
  let ts := if timestamps.length > DIFFICULTY_WINDOW
    then timestamps.take DIFFICULTY_WINDOW else timestamps
  let cd := if timestamps.length > DIFFICULTY_WINDOW
    then cumulative_difficulties.take DIFFICULTY_WINDOW else cumulative_difficulties
  let length := ts.length
  if length ≤ 1 then 1
  else
    let sorted := sortNat ts
    let cutB := if length ≤ DIFFICULTY_WINDOW - 2 * DIFFICULTY_CUT then 0
      else (length - (DIFFICULTY_WINDOW - 2 * DIFFICULTY_CUT) + 1) / 2
    let cutE := if length ≤ DIFFICULTY_WINDOW - 2 * DIFFICULTY_CUT then length
      else cutB + (DIFFICULTY_WINDOW - 2 * DIFFICULTY_CUT)
    let timeSpan0 := sub64 (sorted.getD (cutE - 1) 0) (sorted.getD cutB 0)
    let timeSpan := if timeSpan0 = 0 then 1 else timeSpan0
    let totalWork := sub64 (cd.getD (cutE - 1) 0) (cd.getD cutB 0)
    let low := lo64 (totalWork * target_seconds)
    let high := hi64 (totalWork * target_seconds)
    if high ≠ 0 ∨ lo64 (low + timeSpan - 1) < low then 1
    else lo64 (low + timeSpan - 1) / timeSpan

/-- Modelled from the spec: `epee::misc_utils::median` (the epee library
is part of this repository but not of this excerpt).  Empty vector →
value-initialised `0`; single element → that element; otherwise sort and
take the middle element (odd length) or the mean of the two middle
elements (even length). -/
def medianNat (v : List Nat) : Nat :=
  if v.length = 0 then 0
  else if v.length = 1 then v.getD 0 0
  else
    let s := sortNat v
    let n := v.length / 2
    if v.length % 2 = 1 then s.getD n 0
    else (s.getD (n - 1) 0 + s.getD n 0) / 2

/-- The start index of the `last_diffs` loop in `next_difficulty_v4`:
the source writes `DIFFICULTY_BLOCKS_COUNT_V12*-10`, i.e.
`70 * (size_t)(-10)`, which wraps to `2^64 - 700`. -/
def lastDiffsStart : Nat := (DIFFICULTY_BLOCKS_COUNT_V12 * (2 ^ 64 - 10)) % 2 ^ 64

/-- `first_diffs`: `cumulative_difficulties[i]` for `i < 70 - 30`. -/
def firstDiffs (cd : List Nat) : List Nat :=
  (List.range (DIFFICULTY_BLOCKS_COUNT_V12 - 30)).map fun i => cd.getD i 0

/-- `mid_diffs`: `cumulative_difficulties[i]` for `70 - 30 ≤ i < 70 - 10`. -/
def midDiffs (cd : List Nat) : List Nat :=
  (List.range' (DIFFICULTY_BLOCKS_COUNT_V12 - 30)
    ((DIFFICULTY_BLOCKS_COUNT_V12 - 10) - (DIFFICULTY_BLOCKS_COUNT_V12 - 30))).map
    fun i => cd.getD i 0

/-- `last_diffs`: the loop `for (i = DIFFICULTY_BLOCKS_COUNT_V12*-10;
i < DIFFICULTY_BLOCKS_COUNT_V12; i++)`, whose start index wraps to
`2^64 - 700 ≥ 70`, so the iteration count is zero. -/
def lastDiffs (cd : List Nat) : List Nat :=
  (List.range' lastDiffsStart (DIFFICULTY_BLOCKS_COUNT_V12 - lastDiffsStart)).map
    fun i => cd.getD i 0

/-- Loop state of `next_difficulty_v4`'s weighted-timespan scan. -/
structure V4State where
  prevMax : Nat
  weighted : Nat
  nbShort : Nat
  lastWasShort : Bool
  lastShortRun : Nat
  nbLong : Nat

/-- One iteration of the `next_difficulty_v4` scan (loop body for index
`i ∈ [1, length)`). -/
def v4Step (length target_seconds : Nat) (ts : List Nat)
    (st : V4State) (i : Nat) : V4State :=
  let maxTimestamp := if st.prevMax < ts.getD i 0 then ts.getD i 0 else st.prevMax
  let timespan0 := maxTimestamp - st.prevMax
  let timespan :=
    if timespan0 = 0 then 1
    else if lo64 (11 * target_seconds) < timespan0 then lo64 (11 * target_seconds)
    else timespan0
  let inWindow := lo64 (length + 2 ^ 64 - 7) ≤ i
  let nbShort := if inWindow ∧ timespan < 30 then st.nbShort + 1 else st.nbShort
  let lastWasShort := if inWindow then decide (timespan < 30) else st.lastWasShort
  let lastShortRun := if inWindow then
      (if timespan < 30 then st.lastShortRun + 1 else 0) else st.lastShortRun
  let nbLong := if inWindow ∧ 100 < timespan then st.nbLong + 1 else st.nbLong
  ⟨maxTimestamp, lo64 (st.weighted + lo64 (i * timespan)),
    nbShort, lastWasShort, lastShortRun, nbLong⟩

/-- The short-burst adjustment of `next_difficulty_v4` (all
multiplications wrap in 64 bits before the division, as in the source). -/
def v4Adjust (st : V4State) : Nat :=
  if st.lastWasShort then
    if 7 ≤ st.nbShort then lo64 (st.weighted * 1) / 2
    else if st.nbShort = 6 then
      if st.lastShortRun = 6 then lo64 (lo64 (st.weighted * 3) / 5 * 7) / 8
      else lo64 (st.weighted * 3) / 5
    else if st.nbShort = 5 then
      if st.lastShortRun = 5 then lo64 (lo64 (st.weighted * 4) / 5 * 7) / 8
      else lo64 (st.weighted * 4) / 5
    else if st.nbShort = 4 then
      if st.lastShortRun = 4 then lo64 (lo64 (st.weighted * 9) / 10 * 7) / 8
      else lo64 (st.weighted * 9) / 10
    else if st.nbShort = 3 then
      if st.lastShortRun = 3 then lo64 (lo64 (st.weighted * 11) / 12 * 7) / 8
      else lo64 (st.weighted * 11) / 12
    else st.weighted
  else st.weighted

/-- `next_difficulty_v4`: weighted timespans with the anti-manipulation
median branch and the anti-spam short-interval adjustment.  Returns `0`
when the 128-bit multiply overflows, as the source does. -/
def next_difficulty_v4 (timestamps cumulative_difficulties : List Nat)
    (target_seconds : Nat) : Nat :=
  let ts0 := if timestamps.length > DIFFICULTY_BLOCKS_COUNT_V12
    then timestamps.take DIFFICULTY_BLOCKS_COUNT_V12 else timestamps
  let cd0 := if timestamps.length > DIFFICULTY_BLOCKS_COUNT_V12
    then cumulative_difficulties.take DIFFICULTY_BLOCKS_COUNT_V12
    else cumulative_difficulties
  let shrink : Bool :=
    if DIFFICULTY_BLOCKS_COUNT_V12 - 1 ≤ cd0.length then
      (decide (lo64 (medianNat (midDiffs cd0) * 6) / 5 < medianNat (firstDiffs cd0)) &&
        decide (lo64 (medianNat (lastDiffs cd0) * 10) / 9 < medianNat (midDiffs cd0))) ||
      (decide (lo64 (medianNat (firstDiffs cd0) * 6) / 5 < medianNat (midDiffs cd0)) &&
        decide (lo64 (medianNat (midDiffs cd0) * 10) / 9 < medianNat (lastDiffs cd0)))
    else false
  let ts := if shrink then ts0.take 25 else ts0
  let cd := if shrink then cd0.take 25 else cd0
  let length := ts.length
  if length ≤ 1 then 1
  else
    let st := (List.range' 1 (length - 1)).foldl
      (v4Step length target_seconds ts) ⟨ts.getD 0 0, 0, 0, false, 0, 0⟩
    let weighted := v4Adjust st
    let target := lo64 (99 * lo64 ((length + 1) / 2 * target_seconds)) / 100
    let minimumTimespan := lo64 (target_seconds * length) / 2
    let weighted2 := if weighted < minimumTimespan then minimumTimespan else weighted
    let totalWork := sub64 (cd.getD (cd.length - 1) 0) (cd.getD 0 0)
    let low := lo64 (totalWork * target)
    let high := hi64 (totalWork * target)
    if high ≠ 0 then 0
    else low / weighted2

/-- C++ `uint64_t → int64_t` conversion (two's complement wrap). -/
def toInt64 (n : Nat) : Int :=
  if n % 2 ^ 64 < 2 ^ 63 then ((n % 2 ^ 64 : Nat) : Int)
  else ((n % 2 ^ 64 : Nat) : Int) - 2 ^ 64

/-- Is this value representable in `int64_t`? -/
def i64ok (x : Int) : Prop := -(2 ^ 63) ≤ x ∧ x < 2 ^ 63

instance (x : Int) : Decidable (i64ok x) := by
  unfold i64ok
  infer_instance

/-- One iteration of `next_difficulty_v3`'s LWMA loop: state is the pair
of binary64 accumulators `(LWMA, sum_inverse_D)`; `none` marks C++
undefined behaviour (signed overflow) or an IEEE infinity (division by a
zero difficulty). -/
def v3Step (ts cd : List Nat) (T : Int) (k : Int × Int)
    (st : (Int × Int) × (Int × Int)) (i : Nat) : Option ((Int × Int) × (Int × Int)) :=
  let st0 : Int := toInt64 (ts.getD i 0) - toInt64 (ts.getD (i - 1) 0)
  if ¬ i64ok st0 then none
  else
    let solveTime : Int := min (T * 7) (max st0 (-7 * T))
    let diff := sub64 (cd.getD i 0) (cd.getD (i - 1) 0)
    if diff = 0 then none
    else
      let u : Nat := (solveTime % (2 ^ 64 : Int)).toNat
      let v : Int := toInt64 (lo64 (u * i))
      let term := fdiv (fofInt v) k
      some (fadd st.1 term, fadd st.2 (fdiv (fofNat 1) (fofNat diff)))

/-- `LWMA` after the sanity guard: replaced by `double(T / 20)` when its
half-away-from-zero rounding is below the truncated division `T / 20`. -/
def v3Lwma2 (T : Int) (lwma : Int × Int) : Int × Int :=
  if froundHalfAway lwma < Int.tdiv T 20 then fofInt (Int.tdiv T 20) else lwma

/-- `nextDifficulty = harmonic_mean_D * T / LWMA` with
`harmonic_mean_D = N / sum_inverse_D * adjust`. -/
def v3NdF (T : Int) (N : Nat) (lwma sumInv : Int × Int) : Int × Int :=
  fdiv (fmul (fmul (fdiv (fofNat N) sumInv) (flit 998 1000)) (fofInt T))
    (v3Lwma2 T lwma)

/-- The tail of `next_difficulty_v3` after the LWMA loop: the sanity
guard, the harmonic mean, the double→`uint64_t` cast, and the two clamps. -/
def v3Finish (T : Int) (N : Nat) :
    Option ((Int × Int) × (Int × Int)) → Option Nat
  | none => none
  | some (lwma, sumInv) =>
      if ¬ i64ok (froundHalfAway lwma) then none
      else if sumInv.1 = 0 then none
      else if (v3Lwma2 T lwma).1 = 0 then none
      else if (v3NdF T N lwma sumInv).1 < 0 then none
      else if 2 ^ 64 ≤ ftruncNat (v3NdF T N lwma sumInv) then none
      else if ftruncNat (v3NdF T N lwma sumInv) < 2000 then some 75723142
      else if 120307799 < ftruncNat (v3NdF T N lwma sumInv) then some 120307799
      else some (ftruncNat (v3NdF T N lwma sumInv))

/-- `N` of `next_difficulty_v3`: reset to `n - 1` when `n < N + 1`. -/
def v3N (n : Nat) : Nat :=
  if n < DIFFICULTY_WINDOW_V2 + 1 then n - 1 else DIFFICULTY_WINDOW_V2

/-- `next_difficulty_v3` on the already-truncated window. -/
def v3Core (ts cd : List Nat) (target_seconds : Nat) : Option Nat :=
  if ts.length < 6 then some 1
  else if ¬ (i64ok (toInt64 target_seconds * 7) ∧
      i64ok (-7 * toInt64 target_seconds)) then none
  else v3Finish (toInt64 target_seconds) (v3N ts.length)
    ((List.range' 1 (v3N ts.length)).foldlM
      (v3Step ts cd (toInt64 target_seconds)
        (fofNat (v3N ts.length * (v3N ts.length + 1) / 2)))
      ((0, 0), (0, 0)))

/-- `next_difficulty_v3` (LWMA): binary64 arithmetic modelled exactly;
`none` marks C++ undefined behaviour (signed-integer overflow,
out-of-range double→integer casts) or an IEEE infinity (division by
zero), none of which occur on the chain's actual inputs.  Note the
source's truncation quirk: when more than `N = 70` entries are supplied,
`N + 1 = 71` are kept. -/
def next_difficulty_v3 (timestamps cumulative_difficulties : List Nat)
    (target_seconds : Nat) : Option Nat :=
  if timestamps.length > DIFFICULTY_WINDOW_V2 then
    v3Core (timestamps.take (DIFFICULTY_WINDOW_V2 + 1))
      (cumulative_difficulties.take (DIFFICULTY_WINDOW_V2 + 1)) target_seconds
  else v3Core timestamps cumulative_difficulties target_seconds

/-! ## Claims about the difficulty engine -/

/-- Whatever the LWMA loop produced, the tail of `next_difficulty_v3`
only ever returns values in `[2000, 120_307_799]` (when it returns at
all): the two clamps bound everything else. -/
theorem v3Finish_range (T : Int) (N : Nat)
    (res : Option ((Int × Int) × (Int × Int))) (r : Nat)
    (h : v3Finish T N res = some r) : 2000 ≤ r ∧ r ≤ 120307799 := by
  match res with
  | none => exact absurd h (by simp [v3Finish])
  | some (lwma, sumInv) =>
      simp only [v3Finish] at h
      split_ifs at h
      all_goals
        replace h := Option.some.inj h
        omega

theorem v3Core_ge_one (ts cd : List Nat) (T r : Nat)
    (h : v3Core ts cd T = some r) : 1 ≤ r := by
  unfold v3Core at h
  split at h
  · have := Option.some.inj h
    omega
  · split at h
    · exact absurd h (by simp)
    · have := v3Finish_range _ _ _ _ h
      omega

theorem v3Core_range (ts cd : List Nat) (T r : Nat) (h6 : 6 ≤ ts.length)
    (h : v3Core ts cd T = some r) : 2000 ≤ r ∧ r ≤ 120307799 := by
  unfold v3Core at h
  split at h
  · omega
  · split at h
    · exact absurd h (by simp)
    · exact v3Finish_range _ _ _ _ h

/-- C4 counterexample: `next_difficulty` on two equal timestamps with
strictly increasing cumulative difficulties `[0, 2^63]` and positive
target 2 returns `0`: the 128-bit product `2^63 * 2` has a zero low word,
and v1 uses only the low word.  This refutes "all variants return ≥ 1 for
non-empty inputs". -/
theorem next_difficulty_returns_zero :
    next_difficulty [7, 7] [0, 2 ^ 63] 2 = 0 := by decide

/-- C4 amended: every variant returns exactly 1 on inputs of length ≤ 1
(with equal-length difficulty windows), and v3 returns a value ≥ 1
whenever its result is defined; but v1 (and likewise v2 and v4) can
return 0 on longer inputs, as the counterexample shows. -/
theorem difficulty_lower_bound_amended :
    (∀ (ts cd : List Nat) (T : Nat), ts.length ≤ 1 → cd.length = ts.length →
      next_difficulty ts cd T = 1 ∧ next_difficulty_v2 ts cd T = 1 ∧
      next_difficulty_v3 ts cd T = some 1 ∧ next_difficulty_v4 ts cd T = 1) ∧
    (∀ (ts cd : List Nat) (T r : Nat),
      next_difficulty_v3 ts cd T = some r → 1 ≤ r) := by
  constructor
  · intro ts cd T hlen hcdlen
    have hc : ¬ (DIFFICULTY_BLOCKS_COUNT_V12 - 1 ≤ cd.length) := by
      unfold DIFFICULTY_BLOCKS_COUNT_V12 DIFFICULTY_WINDOW_V2
      omega
    obtain _ | ⟨a, tl⟩ := ts
    · refine ⟨?_, ?_, ?_, ?_⟩
      · simp [next_difficulty, DIFFICULTY_WINDOW]
      · simp [next_difficulty_v2, DIFFICULTY_WINDOW]
      · simp [next_difficulty_v3, v3Core, DIFFICULTY_WINDOW_V2]
      · simp [next_difficulty_v4, DIFFICULTY_BLOCKS_COUNT_V12,
          DIFFICULTY_WINDOW_V2, hc]
    · have htl : tl = [] := by
        simp only [List.length_cons] at hlen
        exact List.length_eq_zero.1 (by omega)
      subst htl
      refine ⟨?_, ?_, ?_, ?_⟩
      · simp [next_difficulty, DIFFICULTY_WINDOW]
      · simp [next_difficulty_v2, DIFFICULTY_WINDOW]
      · simp [next_difficulty_v3, v3Core, DIFFICULTY_WINDOW_V2]
      · simp [next_difficulty_v4, DIFFICULTY_BLOCKS_COUNT_V12,
          DIFFICULTY_WINDOW_V2, hc]
  · intro ts cd T r hr
    unfold next_difficulty_v3 at hr
    split at hr
    · exact v3Core_ge_one _ _ _ _ hr
    · exact v3Core_ge_one _ _ _ _ hr

/-- Witness for C4's amended theorem at concrete inputs. -/
theorem difficulty_lower_bound_amended_witness :
    (next_difficulty [] [] 60 = 1 ∧ next_difficulty_v2 [] [] 60 = 1 ∧
      next_difficulty_v3 [] [] 60 = some 1 ∧ next_difficulty_v4 [] [] 60 = 1) ∧
    1 ≤ 1 :=
  ⟨difficulty_lower_bound_amended.1 [] [] 60 (by decide) (by decide),
   difficulty_lower_bound_amended.2 [] [] 60 1 (by decide)⟩

/-- C5 counterexample: eight timestamps spaced exactly 120 s apart with
cumulative difficulty increasing by 50000 per block give
`next_difficulty_v3 = 49899`, which lies below the claimed floor
75_723_142: the clamp only raises values below 2000. -/
theorem next_difficulty_v3_below_claimed_floor :
    next_difficulty_v3 [0, 120, 240, 360, 480, 600, 720, 840]
        [0, 50000, 100000, 150000, 200000, 250000, 300000, 350000] 120
      = some 49899 ∧ ¬ (75723142 ≤ 49899) := by
  refine ⟨by decide, by decide⟩

/-- C5 amended: for every input with at least 6 timestamps on which the
computation is defined, the returned value lies in
`[2000, 120_307_799]`: a computed value below 2000 (not 75_723_142) is
raised to 75_723_142, and a value above 120_307_799 is lowered to
120_307_799; computed values in `[2000, 75_723_141]` are returned
unchanged. -/
theorem next_difficulty_v3_range (ts cd : List Nat) (T r : Nat)
    (hn : 6 ≤ ts.length)
    (hr : next_difficulty_v3 ts cd T = some r) :
    2000 ≤ r ∧ r ≤ 120307799 := by
  unfold next_difficulty_v3 at hr
  split at hr
  · next hgt =>
      refine v3Core_range _ _ _ _ ?_ hr
      rw [List.length_take]
      unfold DIFFICULTY_WINDOW_V2 at hgt ⊢
      omega
  · exact v3Core_range _ _ _ _ hn hr

/-- Witness for C5's amended range theorem at the counterexample input. -/
theorem next_difficulty_v3_range_witness :
    2000 ≤ 49899 ∧ 49899 ≤ 120307799 :=
  next_difficulty_v3_range [0, 120, 240, 360, 480, 600, 720, 840]
    [0, 50000, 100000, 150000, 200000, 250000, 300000, 350000] 120 49899
    (by decide) (by decide)

/-- C10: in `next_difficulty_v4`, the start index of the `last_diffs`
loop is `DIFFICULTY_BLOCKS_COUNT_V12*-10`, which in `size_t` arithmetic
wraps to `2^64 − 700 ≥ DIFFICULTY_BLOCKS_COUNT_V12`; hence the loop runs
zero iterations for every input, `last_diffs` is always empty, and
`median_last` is the median of an empty sequence (0). -/
theorem v4_last_diffs_loop_empty :
    DIFFICULTY_BLOCKS_COUNT_V12 ≤ lastDiffsStart ∧
    lastDiffsStart = 2 ^ 64 - 700 ∧
    ∀ cd : List Nat, lastDiffs cd = [] ∧ medianNat (lastDiffs cd) = 0 := by
  refine ⟨by decide, by decide, ?_⟩
  intro cd
  have hzero : DIFFICULTY_BLOCKS_COUNT_V12 - lastDiffsStart = 0 := by decide
  have hnil : lastDiffs cd = [] := by
    unfold lastDiffs
    rw [hzero]
    rfl
  exact ⟨hnil, by rw [hnil]; rfl⟩

/-! ## Checkpoint registry (src/src/checkpoints/checkpoints.cpp)

The registry `m_points : std::map<uint64_t, crypto::hash>` is modelled as
an association list with unique keys; a `crypto::hash` is its 256-bit
value (the hex strings of the source are parsed to numbers below, an
injective encoding of the 32-byte values that `parse_tpod_from_hex_string`
produces).  `add_checkpoint` takes the already-parsed hash: the source
first parses the hex string and returns `false` on a parse error before
the map is touched. -/

/-- A checkpoint registry: unique heights mapped to hash values. -/
abbrev Registry := List (Nat × Nat)

/-- `checkpoints::add_checkpoint(height, hash)`: fails (returns `false`,
here `none`) when the height is already pinned with a different hash;
re-adding the same hash rewrites the same value and is a success. -/
def add_checkpoint (m : Registry) (height h : Nat) : Option Registry :=
  match List.lookup height m with
  | some h0 => if h0 = h then some m else none
  | none => some ((height, h) :: m)

/-- Run a sequence of `add_checkpoint` calls, a failed add leaving the
registry unchanged (as in the source, where the caller decides whether to
abort). -/
def applyAdds (m : Registry) (adds : List (Nat × Nat)) : Registry :=
  adds.foldl (fun acc p => (add_checkpoint acc p.1 p.2).getD acc) m

/-- `checkpoints::get_max_height()` via `std::max_element` over the keys;
on an empty registry the source dereferences the end iterator (undefined
behaviour), which callers guard as below. -/
def get_max_height (m : Registry) : Nat :=
  (m.map Prod.fst).foldl max 0

/-- Largest element `≤ tip` of an ascending sorted list, as
`--upper_bound(tip)` finds it in the ordered `std::map`. -/
def lastLe : List Nat → Nat → Option Nat
  | [], _ => none
  | k :: ks, tip => if tip < k then none else some ((lastLe ks tip).getD k)

/-- `checkpoints::is_alternative_block_allowed(blockchain_height,
block_height)`: height 0 is never allowed; otherwise allowed iff no
checkpoint is at height `≤ blockchain_height` or the highest such
checkpoint is below `block_height`. -/
def is_alternative_block_allowed (m : Registry)
    (blockchain_height block_height : Nat) : Bool :=
  if block_height = 0 then false
  else
    match lastLe (sortNat (m.map Prod.fst)) blockchain_height with
    | none => true
    | some k => decide (k < block_height)

inductive NetworkType where
  | main : NetworkType
  | test : NetworkType
  | stage : NetworkType

def testnetCheckpointList : List (Nat × Nat) := [
  (0, 32924289731330093131423443100652558918721982560751521468922857444722749227787),
  (1000000, 31984464353513511393393090798083048338137858017567055896087350738922134348376)
]

def stagenetCheckpointList : List (Nat × Nat) := [
  (0, 53793845272113486340986756331295363542946856200886583649953864894068242150635),
  (10000, 14267378991052761670464201813569034284811640639868440586326467349875537096661)
]

/-- The mainnet `ADD_CHECKPOINT` table of `init_default_checkpoints`. -/
def mainnetCheckpointList : List (Nat × Nat) := [
  (1, 31306555286355710412687562758238496155088250430986984897822648117303304424643),
  (10, 103888817749309311470430739219276614879776872105588912710640521448913750540430),
  (100, 102824356637342857945251528857364877186661089380812380929866357666496184922816),
  (1000, 97665193467099468260953379947786680496620250477586004671535960374019387384467),
  (10000, 67781252624420244261936678219174763575124613473089816381396451573659839088997),
  (25000, 56200552800811355811491522950673836867779860862223703620822307203503012136818),
  (50000, 13805048133468445504242608585440044356770042775367819058106955249318970035242),
  (100000, 75856242767662927792637449455568725259691584026424672483726866846213722541229),
  (150000, 105711213876517560977455939189316420997204488037840120258713936802927618286094),
  (179839, 112348720444215318549714348663388341146386644138118791834431923218891855005934),
  (179840, 52732517623383854149390721432817946027132114041800570482951926086802405396080),
  (179841, 62633397135499488284786137801444680015448894626105836562277354539996889105736),
  (180000, 45728189958747446128739020617408524671142946357097636366312215541714011953155),
  (200000, 69868775555416374510116536653748118363554330115070120379016079734104615902607),
  (225000, 17498962527829031727676163287810650508065350011057173177359032363011058184755),
  (230000, 79656289861102864633610329031095055210261391907763986995899351090482904711117),
  (307003, 83050109606762658095621046212450721672079791075209154256538700999734021381343),
  (307165, 36405201584342357304507342102474149239956952235287450913400830260689529610924),
  (307166, 80713455899713447969027907730165745666278328604920449661987107136479669442699),
  (307167, 33394967741709605395145682639177198165507245428357445616197973010162609771854),
  (307168, 77554861201620663245095852227432195599701058015686490930625273637081629825775),
  (307169, 75736962440830303817196378782682940639816580232095919569823208252350552512747),
  (307170, 38575682340423187184245479588109635895478198288735454295928199531785319232325),
  (307171, 37286218755320905135430773370733037564432179271693363865546001737248588573846),
  (307172, 84179137349332555883681509635323703201453655417517301428273114084755978756733),
  (307173, 98885408537309859288621377031257890721247816378781865268027664684057698877475),
  (307174, 70315676872722759135841161709256938429190134933021310895018071815918080721628),
  (307175, 95070890140645009232638018916310776336597345125219879915013783758154862704673),
  (308112, 4777489924472025065456239972590522993261034867692127736623021135321046545406),
  (309231, 24956471146819164661727292164107969627089953721075932836842016402479674861943),
  (310790, 99714239799725646173890345691259939947937256071090844089446630100730806351217),
  (310791, 54980137420759209235317655847459451236078794790772925875741932895153574961948),
  (319000, 96464382164848582399359140628166372628867814268475487947612495755762104081350),
  (319062, 69322992297683323545823329228002034582921572332976206383520354492205567441008),
  (320023, 39090909853621725631423152502676604630545099901619491209438888874743499727357),
  (333685, 40561757494776755902072542435214752263987693415805944118179450434363028080610),
  (333690, 1576592290597310846323842022527648409476340150589543495767547646269688011368),
  (333691, 56504288361506304164432004200005912582323221221310007241544532939070154972618),
  (333692, 46640246666024983027903472612022403961532477596064360761099292559835584178646),
  (333693, 88102072675495730816842364374360905116777100759366025134945582421647987113116),
  (333694, 97291710464253392790706494065462987052362734080381083265361220510456197977013),
  (333695, 91013573307992927068057993977249130932354126699553134103792274647184573651255),
  (333696, 31128004830232859802983396405022714049914052545149710041976740940243189490476),
  (333697, 111154413299231534722008826588232081575107506019709800435035492094027799929979),
  (333698, 78399884599273220088658155930663064772893755279997147052304116186083853497512),
  (333699, 87903258248362917281674300069185596923812692583766791123566268156680108925144),
  (337235, 78426659049667595552117417470038872376562980085999847070274703782116858482360),
  (337239, 64830436444613021941898885265589718990437651162344529029861369256009766012178),
  (337240, 82453771813459900829012026644929322041838293118002330042238777973229594492769),
  (337282, 46675101115705623742113624413599106196764433288888233856854662133096280270308),
  (337314, 11948230664974695869037384066485571642334266596059356317223557108418190326384),
  (337341, 5329397095416057792214583421664239175565258587129995522905134039125439796396),
  (337344, 12226866873539677007549452699924273281852432950485176478079250445334678149946),
  (337364, 44023253326232020482437683521797786188425547837528196556477953951714407801406),
  (337385, 3708096374984003608382766937265298430610373987150531264184321536594603086446),
  (337397, 65858339193284721416805190895846084410156479567733711089104569080942019609871),
  (337807, 76443864487080297416040725162379062469631150106892132984340871509198841571952),
  (337808, 66051728100860859306365056328262849363750807810186514085179572137578954917082),
  (337809, 36898183004583093882902470628451020806639131671652006820231220666971686745173),
  (337810, 78919907394215421195804000464553908349788295594943138776753602309754033481697),
  (337811, 25412313837785365898088874654859699959581512678792164012608113786224704278878),
  (337812, 26850056362590900284845711708770040680604914757834673899433835364370122517031),
  (337813, 1092635018670947939561772093052025245370409487296077809358540479786579384489),
  (337814, 232485315666726025837987625506975355059335705830130833998390643943981941476),
  (337815, 4670994252044944970269538365258324241390029755497504416245173597776118940675),
  (337911, 70198127363693713503330456376002285012962195542991649330816592663188501104492),
  (337837, 89255400321093604941561760981249343130454472281684064934083097659691800174330),
  (337838, 108475430988827839674032516765964037685843152694874037791554251863388100732367),
  (337839, 105112375211679627562507426795234933605233214857687363922404470411600270051495),
  (337840, 4728065519133291442436910378007726037154084360460563983687114987589580147435),
  (338120, 31688454905753940062794974648803895067305326843392756343825404907740258854312),
  (338131, 6498928843528329464237880467613028788149024345037255532120145499892319053978),
  (500060, 22338030727940090560449611755249433449520139525092005421348235816550264059310),
  (500091, 23525561125933130313186230476461451627565545331520084459825322309380617065591),
  (500092, 40415116627097279648135951118686877982419962782500940807650480314781469037106),
  (500093, 83070949770198639803104353220652150750934859024068373142740427733976482110004),
  (500094, 111388296134844354846953506175000008582703857980549569540404506370505619084760),
  (500095, 38493033009627468806675370487777978328769516625727048318834171289313232126046),
  (500096, 53920940454563485487740864115207809628921858929305307517890380475989779229840),
  (500097, 11155031617072303953786246377368837250326160721893617607621526762137112804934),
  (570000, 102238543565113068529309298475366269282102583240393740529518981945188410725186),
  (570001, 94615145573703542225113476691786787056736559203412976581172586282889003432406),
  (570002, 102170852425745823012062816337083408685094381302354860798707955053797829119305),
  (570003, 16190475899615479143823922884028062968426110606110420809844971678490608024699),
  (570004, 14532850253156093242996860467260708155133653788735795527488493082777055194753),
  (570005, 12192752217740880857464117701643273284074869422795042976612238876040609693164),
  (570006, 91242418936938209114851437634306083439295350500878636229786385283263095163407),
  (570007, 7317879306019818429477633618493248506584594132593447686071177079083513192467),
  (570008, 48459086930054990680172883128805894907233874145767467619706101794023167095550),
  (570009, 25277328293021877626870124791675592440707346485673896713325387944067800586495),
  (570010, 25171437116306107397699846065331415787404103171130777343034729643007206716014),
  (570100, 84733294396390333109550341096595086824218528030918578445215771386558120179842),
  (570500, 53228094974828333774158953386845592967942040755075616052812427214903010042047),
  (571000, 58836273342113515781550183479215504930960239267668442843214298058557316945373),
  (572000, 7653798110933935811349331452002066917571355411161970156634710189161518404478),
  (572500, 57416198623781733593815438880660177127388457602525680614590375149247877378047),
  (575000, 84848899017855864219176504306123056547382068151569664960673911755236349294195),
  (576000, 55554187361709729467974819465141679304606625176820593613193698969302617615000),
  (577000, 48199122600883498687031584440830119639101523650679074286715566452961053893540),
  (578000, 51535107891189509371433668382274631602291192813317032055351025845519326497051),
  (580000, 90375889770475242665217256551837214405883087840056089494807401710495447912544),
  (659000, 112396322664995424911291605788691561593989851630861450981925479906585838264713),
  (659001, 28809577470830376292897570222804132959763472582351161549668456051478589812918),
  (659002, 12598618857774734050122419053565606315431386750737616012815479047182957440085),
  (659003, 50313676003792169384887201234754479539624314609664957077370658094947555199310),
  (659004, 21926794019835438337536704588774715649666308754182036834796535186157452950093),
  (659005, 49625498203455533080807243683301199718860003208911947268009576440272468210842),
  (659006, 99237170796070375649426466270626398489560504519512866347635469347407389689870),
  (659007, 25127323414572655847709915139433963526923371181148071091316118154672551673854),
  (659008, 65125987217263423947869322088801847121659709547856789953871155164913036995295),
  (659009, 87983486541461073618201560117946568993061784334547521241439486522304807499027),
  (673449, 29273890628720895125195631807983982811846182126614129238299710152234739870348)
]

/-- `checkpoints::init_default_checkpoints(nettype)`: seed the built-in
per-network table (`ADD_CHECKPOINT` aborts with `false` on a conflicting
add, modelled by the `Option` fold). -/
def init_default_checkpoints (m : Registry) (net : NetworkType) : Option Registry :=
  match net with
  | .test => testnetCheckpointList.foldlM (fun acc p => add_checkpoint acc p.1 p.2) m
  | .stage => stagenetCheckpointList.foldlM (fun acc p => add_checkpoint acc p.1 p.2) m
  | .main => mainnetCheckpointList.foldlM (fun acc p => add_checkpoint acc p.1 p.2) m

/-- What the JSON loader can observe of the checkpoint file. -/
inductive FileRead where
  | missing : FileRead
  | unparsable : FileRead
  | parsed : List (Nat × Nat) → FileRead

/-- `checkpoints::load_checkpoints_from_json(path)`: a missing file is a
success with no additions; a file that fails to parse is an error; for a
parsed file, `prev_max_height = get_max_height()` is computed once, every
entry at a height `≤ prev_max_height` is skipped with a log line, and the
remaining entries are added with `ADD_CHECKPOINT` (abort on conflict).
The empty-registry case is `none` because `get_max_height` would
dereference the end iterator. -/
def load_checkpoints_from_json (m : Registry) (file : FileRead) : Option Registry :=
  match file with
  | .missing => some m
  | .unparsable => none
  | .parsed entries =>
      if m.isEmpty then none
      else
        entries.foldlM
          (fun acc p =>
            if p.1 ≤ get_max_height m then some acc
            else add_checkpoint acc p.1 p.2) m


/-! ### Lemmas about `add_checkpoint` and `applyAdds` -/

/-- A successful `add_checkpoint` makes the added hash visible at its height. -/
theorem add_checkpoint_lookup_self (m : Registry) (hgt x : Nat) (m' : Registry)
    (hadd : add_checkpoint m hgt x = some m') : List.lookup hgt m' = some x := by
  unfold add_checkpoint at hadd
  cases hcase : List.lookup hgt m with
  | some h0 =>
      rw [hcase] at hadd
      have hadd' : (if h0 = x then some m else none) = some m' := hadd
      split at hadd'
      · next heq =>
          have hm : m = m' := Option.some.inj hadd'
          rw [← hm, hcase, heq]
      · exact Option.noConfusion hadd'
  | none =>
      rw [hcase] at hadd
      have hadd' : some ((hgt, x) :: m) = some m' := hadd
      have hm : (hgt, x) :: m = m' := Option.some.inj hadd'
      rw [← hm]
      simp [List.lookup]

/-- A successful `add_checkpoint` never erases an existing binding. -/
theorem add_checkpoint_preserves (m : Registry) (hgt x h0 v : Nat) (m' : Registry)
    (hl : List.lookup h0 m = some v)
    (hadd : add_checkpoint m hgt x = some m') : List.lookup h0 m' = some v := by
  unfold add_checkpoint at hadd
  cases hcase : List.lookup hgt m with
  | some h1 =>
      rw [hcase] at hadd
      have hadd' : (if h1 = x then some m else none) = some m' := hadd
      split at hadd'
      · have hm : m = m' := Option.some.inj hadd'
        rw [← hm]; exact hl
      · exact Option.noConfusion hadd'
  | none =>
      rw [hcase] at hadd
      have hadd' : some ((hgt, x) :: m) = some m' := hadd
      have hm : (hgt, x) :: m = m' := Option.some.inj hadd'
      have hne : h0 ≠ hgt := by
        intro he; rw [he, hcase] at hl; exact Option.noConfusion hl
      have hbeq : (h0 == hgt) = false := by simpa using hne
      rw [← hm]
      simp [List.lookup, hbeq]
      exact hl

/-- A successful `add_checkpoint` at another height leaves a lookup unchanged. -/
theorem add_checkpoint_lookup_other (m : Registry) (hgt x h0 : Nat) (m' : Registry)
    (hne : h0 ≠ hgt)
    (hadd : add_checkpoint m hgt x = some m') : List.lookup h0 m' = List.lookup h0 m := by
  unfold add_checkpoint at hadd
  cases hcase : List.lookup hgt m with
  | some h1 =>
      rw [hcase] at hadd
      have hadd' : (if h1 = x then some m else none) = some m' := hadd
      split at hadd'
      · have hm : m = m' := Option.some.inj hadd'
        rw [← hm]
      · exact Option.noConfusion hadd'
  | none =>
      rw [hcase] at hadd
      have hadd' : some ((hgt, x) :: m) = some m' := hadd
      have hm : (hgt, x) :: m = m' := Option.some.inj hadd'
      have hbeq : (h0 == hgt) = false := by simpa using hne
      rw [← hm]
      simp [List.lookup, hbeq]

/-- Any sequence of further `ADD_CHECKPOINT` attempts preserves every existing
binding: an add at the same height either repeats the hash (no-op) or fails,
and `applyAdds` keeps the old registry on failure. -/
theorem applyAdds_preserves (adds : List (Nat × Nat)) (m : Registry) (h0 v : Nat)
    (hl : List.lookup h0 m = some v) : List.lookup h0 (applyAdds m adds) = some v := by
  induction adds generalizing m with
  | nil => exact hl
  | cons p rest ih =>
      have hstep : List.lookup h0 ((add_checkpoint m p.1 p.2).getD m) = some v := by
        cases hadd : add_checkpoint m p.1 p.2 with
        | none => simpa using hl
        | some m2 => simpa using add_checkpoint_preserves m p.1 p.2 h0 v m2 hl hadd
      have hfold : applyAdds m (p :: rest) = applyAdds ((add_checkpoint m p.1 p.2).getD m) rest := rfl
      rw [hfold]
      exact ih _ hstep

/-- C7: once a checkpoint is stored at a height, re-adding the same hash
succeeds without change, adding a different hash fails, and no sequence of
further adds can ever alter the stored hash ("first write wins"). -/
theorem add_checkpoint_first_wins (m : Registry) (hgt x y : Nat) (m' : Registry)
    (hxy : x ≠ y) (hadd : add_checkpoint m hgt x = some m') :
    add_checkpoint m' hgt x = some m' ∧
    add_checkpoint m' hgt y = none ∧
    List.lookup hgt m' = some x ∧
    ∀ adds : List (Nat × Nat), List.lookup hgt (applyAdds m' adds) = some x := by
  have hlook := add_checkpoint_lookup_self m hgt x m' hadd
  refine ⟨?_, ?_, hlook, fun adds => applyAdds_preserves adds m' hgt x hlook⟩
  · unfold add_checkpoint
    rw [hlook]
    simp
  · unfold add_checkpoint
    rw [hlook]
    simp [hxy]

theorem add_checkpoint_first_wins_witness :
    (1 : Nat) ≠ 2 ∧ add_checkpoint [] 5 1 = some [(5, 1)] ∧
    (add_checkpoint [(5, 1)] 5 1 = some [(5, 1)] ∧
     add_checkpoint [(5, 1)] 5 2 = none ∧
     List.lookup 5 ([(5, 1)] : Registry) = some 1 ∧
     ∀ adds : List (Nat × Nat), List.lookup 5 (applyAdds [(5, 1)] adds) = some 1) :=
  ⟨by decide, by decide, add_checkpoint_first_wins [] 5 1 2 [(5, 1)] (by decide) (by decide)⟩

/-! ### Lemmas about `sortNat` and `lastLe`, and the alternative-block rule -/

theorem mem_insertSorted (x a : Nat) (l : List Nat) :
    a ∈ insertSorted x l ↔ a = x ∨ a ∈ l := by
  induction l with
  | nil => simp [insertSorted]
  | cons y ys ih =>
      unfold insertSorted
      split
      · simp [List.mem_cons]
      · simp only [List.mem_cons, ih]
        tauto

theorem sorted_insertSorted (x : Nat) (l : List Nat)
    (h : List.Sorted (· ≤ ·) l) : List.Sorted (· ≤ ·) (insertSorted x l) := by
  induction l with
  | nil => simp [insertSorted]
  | cons y ys ih =>
      rw [List.sorted_cons] at h
      unfold insertSorted
      split
      · next hxy =>
          rw [List.sorted_cons]
          refine ⟨?_, List.sorted_cons.2 h⟩
          intro b hb
          rcases List.mem_cons.1 hb with rfl | hb'
          · exact hxy
          · exact hxy.trans (h.1 b hb')
      · next hxy =>
          rw [List.sorted_cons]
          refine ⟨?_, ih h.2⟩
          intro b hb
          rcases (mem_insertSorted x b ys).1 hb with rfl | hb'
          · omega
          · exact h.1 b hb'

theorem sortNat_sorted (l : List Nat) : List.Sorted (· ≤ ·) (sortNat l) := by
  induction l with
  | nil => exact List.sorted_nil
  | cons y ys ih => exact sorted_insertSorted y (sortNat ys) ih

theorem mem_sortNat (a : Nat) (l : List Nat) : a ∈ sortNat l ↔ a ∈ l := by
  induction l with
  | nil => simp [sortNat]
  | cons y ys ih =>
      have : sortNat (y :: ys) = insertSorted y (sortNat ys) := rfl
      rw [this, mem_insertSorted, ih, List.mem_cons]

theorem lastLe_none_iff (ks : List Nat) (tip : Nat)
    (hs : List.Sorted (· ≤ ·) ks) :
    lastLe ks tip = none ↔ ∀ k ∈ ks, tip < k := by
  induction ks with
  | nil => simp [lastLe]
  | cons k ks ih =>
      rw [List.sorted_cons] at hs
      unfold lastLe
      split
      · next h =>
          refine iff_of_true rfl ?_
          intro j hj
          rcases List.mem_cons.1 hj with rfl | hj'
          · exact h
          · exact lt_of_lt_of_le h (hs.1 j hj')
      · next h =>
          refine iff_of_false (by simp) ?_
          intro hall
          exact absurd (hall k (List.mem_cons_self k ks)) (by omega)

theorem lastLe_some_spec (ks : List Nat) (tip r : Nat)
    (hs : List.Sorted (· ≤ ·) ks) (h : lastLe ks tip = some r) :
    r ∈ ks ∧ r ≤ tip ∧ ∀ j ∈ ks, j ≤ tip → j ≤ r := by
  induction ks generalizing r with
  | nil => exact Option.noConfusion h
  | cons k ks ih =>
      rw [List.sorted_cons] at hs
      unfold lastLe at h
      split at h
      · exact Option.noConfusion h
      · next hk =>
          cases hrec : lastLe ks tip with
          | none =>
              rw [hrec] at h
              have hr : k = r := Option.some.inj h
              subst hr
              refine ⟨List.mem_cons_self k ks, by omega, ?_⟩
              intro j hj hjt
              rcases List.mem_cons.1 hj with rfl | hj'
              · exact le_refl j
              · exact absurd hjt (by have := (lastLe_none_iff ks tip hs.2).1 hrec j hj'; omega)
          | some r0 =>
              rw [hrec] at h
              have hr : r0 = r := Option.some.inj h
              subst hr
              obtain ⟨hmem, htip, hmax⟩ := ih _ hs.2 hrec
              refine ⟨List.mem_cons_of_mem k hmem, htip, ?_⟩
              intro j hj hjt
              rcases List.mem_cons.1 hj with rfl | hj'
              · exact le_trans (hs.1 r0 hmem) (le_refl r0)
              · exact hmax j hj' hjt

/-- C8: `is_alternative_block_allowed` rejects candidate height 0, and
otherwise accepts exactly when no checkpointed height is `≤` the chain tip
or the greatest checkpointed height `≤` the tip is below the candidate;
with the default mainnet checkpoints, tip 400000 rejects candidate 200000
and accepts candidate 340000. -/
theorem is_alternative_block_allowed_spec :
    (∀ (m : Registry) (tip : Nat), is_alternative_block_allowed m tip 0 = false) ∧
    (∀ (m : Registry) (tip bh : Nat), bh ≠ 0 →
      (is_alternative_block_allowed m tip bh = true ↔
        (∀ k ∈ m.map Prod.fst, tip < k) ∨
        ∃ k, k ∈ m.map Prod.fst ∧ k ≤ tip ∧ k < bh ∧
          ∀ j ∈ m.map Prod.fst, j ≤ tip → j ≤ k)) ∧
    (init_default_checkpoints [] NetworkType.main = some mainnetCheckpointList.reverse ∧
      is_alternative_block_allowed mainnetCheckpointList.reverse 400000 200000 = false ∧
      is_alternative_block_allowed mainnetCheckpointList.reverse 400000 340000 = true) := by
  refine ⟨fun m tip => rfl, ?_, by decide, by decide, by decide⟩
  intro m tip bh hbh
  unfold is_alternative_block_allowed
  rw [if_neg hbh]
  have hs := sortNat_sorted (m.map Prod.fst)
  cases hL : lastLe (sortNat (m.map Prod.fst)) tip with
  | none =>
      refine iff_of_true rfl (Or.inl ?_)
      intro k hk
      exact (lastLe_none_iff _ _ hs).1 hL k ((mem_sortNat _ _).2 hk)
  | some k =>
      obtain ⟨hkmem, hktip, hkmax⟩ := lastLe_some_spec _ _ _ hs hL
      rw [decide_eq_true_iff]
      constructor
      · intro hlt
        exact Or.inr ⟨k, (mem_sortNat _ _).1 hkmem, hktip, hlt,
          fun j hj hjt => hkmax j ((mem_sortNat _ _).2 hj) hjt⟩
      · intro hor
        rcases hor with hall | ⟨q, hqm, hqt, hqlt, hqmax⟩
        · exact absurd (hall k ((mem_sortNat _ _).1 hkmem)) (by omega)
        · have h1 : q ≤ k := hkmax q ((mem_sortNat _ _).2 hqm) hqt
          have h2 : k ≤ q := hqmax k ((mem_sortNat _ _).1 hkmem) hktip
          omega

theorem is_alternative_block_allowed_spec_witness :
    (447 : Nat) ≠ 0 ∧
    (is_alternative_block_allowed [(5, 99)] 7 447 = true ↔
      (∀ k ∈ ([(5, 99)] : Registry).map Prod.fst, 7 < k) ∨
      ∃ k, k ∈ ([(5, 99)] : Registry).map Prod.fst ∧ k ≤ 7 ∧ k < 447 ∧
        ∀ j ∈ ([(5, 99)] : Registry).map Prod.fst, j ≤ 7 → j ≤ k) :=
  ⟨by decide, is_alternative_block_allowed_spec.2.1 [(5, 99)] 7 447 (by decide)⟩


/-! ### Lemmas about the JSON checkpoint loader -/

/-- A successful loader fold keeps every binding present in its accumulator. -/
theorem loadFold_preserves (pm : Nat) (entries : List (Nat × Nat)) :
    ∀ (acc m' : Registry) (h0 v : Nat),
      List.foldlM (fun acc p =>
        if p.1 ≤ pm then some acc else add_checkpoint acc p.1 p.2) acc entries = some m' →
      List.lookup h0 acc = some v → List.lookup h0 m' = some v := by
  induction entries with
  | nil =>
      intro acc m' h0 v h hl
      have h1 : some acc = some m' := h
      rw [← Option.some.inj h1]
      exact hl
  | cons p rest ih =>
      intro acc m' h0 v h hl
      cases hstep : (if p.1 ≤ pm then some acc else add_checkpoint acc p.1 p.2) with
      | none =>
          have h1 : ((if p.1 ≤ pm then some acc else add_checkpoint acc p.1 p.2) >>=
            fun acc2 => List.foldlM (fun acc p =>
              if p.1 ≤ pm then some acc else add_checkpoint acc p.1 p.2) acc2 rest) = some m' := h
          rw [hstep] at h1
          exact Option.noConfusion h1
      | some acc2 =>
          have h1 : ((if p.1 ≤ pm then some acc else add_checkpoint acc p.1 p.2) >>=
            fun acc2 => List.foldlM (fun acc p =>
              if p.1 ≤ pm then some acc else add_checkpoint acc p.1 p.2) acc2 rest) = some m' := h
          rw [hstep] at h1
          have h2 : List.foldlM (fun acc p =>
            if p.1 ≤ pm then some acc else add_checkpoint acc p.1 p.2) acc2 rest = some m' := h1
          have hl2 : List.lookup h0 acc2 = some v := by
            split at hstep
            · rw [← Option.some.inj hstep]; exact hl
            · exact add_checkpoint_preserves acc p.1 p.2 h0 v acc2 hl hstep
          exact ih acc2 m' h0 v h2 hl2

/-- A successful loader fold leaves every height `≤ prev_max_height`
untouched: such entries are skipped and every add happens above them. -/
theorem loadFold_lookup_le (pm : Nat) (entries : List (Nat × Nat)) :
    ∀ (acc m' : Registry),
      List.foldlM (fun acc p =>
        if p.1 ≤ pm then some acc else add_checkpoint acc p.1 p.2) acc entries = some m' →
      ∀ h0, h0 ≤ pm → List.lookup h0 m' = List.lookup h0 acc := by
  induction entries with
  | nil =>
      intro acc m' h h0 _
      have h1 : some acc = some m' := h
      rw [← Option.some.inj h1]
  | cons p rest ih =>
      intro acc m' h h0 hle
      cases hstep : (if p.1 ≤ pm then some acc else add_checkpoint acc p.1 p.2) with
      | none =>
          have h1 : ((if p.1 ≤ pm then some acc else add_checkpoint acc p.1 p.2) >>=
            fun acc2 => List.foldlM (fun acc p =>
              if p.1 ≤ pm then some acc else add_checkpoint acc p.1 p.2) acc2 rest) = some m' := h
          rw [hstep] at h1
          exact Option.noConfusion h1
      | some acc2 =>
          have h1 : ((if p.1 ≤ pm then some acc else add_checkpoint acc p.1 p.2) >>=
            fun acc2 => List.foldlM (fun acc p =>
              if p.1 ≤ pm then some acc else add_checkpoint acc p.1 p.2) acc2 rest) = some m' := h
          rw [hstep] at h1
          have h2 : List.foldlM (fun acc p =>
            if p.1 ≤ pm then some acc else add_checkpoint acc p.1 p.2) acc2 rest = some m' := h1
          rw [ih acc2 m' h2 h0 hle]
          split at hstep
          · rw [← Option.some.inj hstep]
          · next hgt => exact add_checkpoint_lookup_other acc p.1 p.2 h0 acc2 (by omega) hstep

/-- A successful loader fold pins every entry whose height exceeds
`prev_max_height`. -/
theorem loadFold_lookup_added (pm : Nat) (entries : List (Nat × Nat)) :
    ∀ (acc m' : Registry),
      List.foldlM (fun acc p =>
        if p.1 ≤ pm then some acc else add_checkpoint acc p.1 p.2) acc entries = some m' →
      ∀ p ∈ entries, pm < p.1 → ∃ v, List.lookup p.1 m' = some v := by
  induction entries with
  | nil =>
      intro acc m' _ p hp
      exact absurd hp (List.not_mem_nil p)
  | cons q rest ih =>
      intro acc m' h p hp hgt
      cases hstep : (if q.1 ≤ pm then some acc else add_checkpoint acc q.1 q.2) with
      | none =>
          have h1 : ((if q.1 ≤ pm then some acc else add_checkpoint acc q.1 q.2) >>=
            fun acc2 => List.foldlM (fun acc p =>
              if p.1 ≤ pm then some acc else add_checkpoint acc p.1 p.2) acc2 rest) = some m' := h
          rw [hstep] at h1
          exact Option.noConfusion h1
      | some acc2 =>
          have h1 : ((if q.1 ≤ pm then some acc else add_checkpoint acc q.1 q.2) >>=
            fun acc2 => List.foldlM (fun acc p =>
              if p.1 ≤ pm then some acc else add_checkpoint acc p.1 p.2) acc2 rest) = some m' := h
          rw [hstep] at h1
          have h2 : List.foldlM (fun acc p =>
            if p.1 ≤ pm then some acc else add_checkpoint acc p.1 p.2) acc2 rest = some m' := h1
          rcases List.mem_cons.1 hp with rfl | hp'
          · rw [if_neg (by omega)] at hstep
            have hself := add_checkpoint_lookup_self acc p.1 p.2 acc2 hstep
            exact ⟨p.2, loadFold_preserves pm rest acc2 m' p.1 p.2 h2 hself⟩
          · exact ih acc2 m' h2 p hp' hgt

/-- C9 counterexample: with only height 10 pinned, the loader ignores a
parsed entry at the unpinned height 5 — the filter is `height ≤
prev_max_height`, not "height already pinned". -/
theorem load_checkpoints_skip_rule_refuted :
    load_checkpoints_from_json [(10, 77)] (FileRead.parsed [(5, 99)]) = some [(10, 77)] ∧
    List.lookup 5 ([(10, 77)] : Registry) = none := by
  decide

/-- C9: a missing file succeeds with no additions and a parse failure
fails; for a parsed file the loader skips exactly the entries whose
height is at most the registry's previous maximum pinned height — pinned
at that height or not — and pins every entry above it. -/
theorem load_checkpoints_from_json_spec :
    (∀ m : Registry, load_checkpoints_from_json m FileRead.missing = some m) ∧
    (∀ m : Registry, load_checkpoints_from_json m FileRead.unparsable = none) ∧
    (∀ (m m' : Registry) (entries : List (Nat × Nat)),
      load_checkpoints_from_json m (FileRead.parsed entries) = some m' →
      ∀ p ∈ entries,
        (p.1 ≤ get_max_height m → List.lookup p.1 m' = List.lookup p.1 m) ∧
        (get_max_height m < p.1 → ∃ v, List.lookup p.1 m' = some v)) := by
  refine ⟨fun m => rfl, fun m => rfl, ?_⟩
  intro m m' entries h p hp
  have h2 : (if m.isEmpty then none
      else entries.foldlM (fun acc p =>
        if p.1 ≤ get_max_height m then some acc
        else add_checkpoint acc p.1 p.2) m) = some m' := h
  split at h2
  · exact Option.noConfusion h2
  · exact ⟨fun hle => loadFold_lookup_le (get_max_height m) entries m m' h2 p.1 hle,
      fun hgt => loadFold_lookup_added (get_max_height m) entries m m' h2 p hp hgt⟩

theorem load_checkpoints_from_json_spec_witness :
    List.lookup 5 ([(20, 3), (10, 77)] : Registry) = List.lookup 5 ([(10, 77)] : Registry) ∧
    ∃ v, List.lookup 20 ([(20, 3), (10, 77)] : Registry) = some v :=
  ⟨(load_checkpoints_from_json_spec.2.2 [(10, 77)] [(20, 3), (10, 77)] [(5, 99), (20, 3)]
      (by decide) (5, 99) (by decide)).1 (by decide),
   (load_checkpoints_from_json_spec.2.2 [(10, 77)] [(20, 3), (10, 77)] [(5, 99), (20, 3)]
      (by decide) (20, 3) (by decide)).2 (by decide)⟩


end Electronero
